import Mathlib

/-!
Verification of the acquisition-and-aggregation pipeline of the
eth-trading-bot-scraper repository.

The development shallowly embeds the two acquisition paths:

* the remote path (`src/src/api/taapi_client.py`): the per-indicator fetch
  orchestrator with its retry loop and rate limiter, the formatting of raw
  indicator payloads to the canonical record, and the summary aggregation;
* the local path (`src/src/api/indicators_calculator.py`): the indicator
  computation over an OHLC candle series (RSI, MACD, Bollinger Bands, OBV,
  StochRSI, ATR, VWAP, CMF, EMA) as implemented by the `ta`/pandas numeric
  layer the module calls into, the pivot-point formulas, and the local
  summary aggregation.

Machine floats are modelled as exact rationals; a float NaN (which arises in
the numeric layer from 0/0 divisions and from windows longer than the data)
is modelled by `none` in `Option ℚ`, with comparisons against NaN yielding
`false` exactly as in IEEE/Python semantics.
-/

namespace TradingBot

/-! ## Remote path: data model (`taapi_client.py`) -/

/-- One raw indicator payload returned by the upstream API, as consumed by
`_format_technical_indicators` / `_format_moving_averages`.  Each field models
one JSON key; `none` means the key is absent from the payload dict. -/
structure Payload where
  value : Option ℚ := none
  valueMACD : Option ℚ := none
  valueMACDSignal : Option ℚ := none
  valueMACDHist : Option ℚ := none
  valueUpperBand : Option ℚ := none
  valueMiddleBand : Option ℚ := none
  valueLowerBand : Option ℚ := none
  valueK : Option ℚ := none
  valueD : Option ℚ := none
  close : Option ℚ := none
  trend : Option Int := none
  deriving Repr, DecidableEq

/-- The result map produced by the fetch orchestrator: for each indicator key
either an actual payload (`some`) or the empty dict `\x7b\x7d` stored on
failure (`none`). -/
def BulkData : Type := String → Option Payload

/-- One formatted technical-indicator entry (a dict in the Python source);
`none` in an optional field means the key is not present in that entry. -/
structure Ind where
  name : String
  signal : String
  value : Option ℚ := none
  histogram : Option ℚ := none
  upper : Option ℚ := none
  middle : Option ℚ := none
  lower : Option ℚ := none
  trend : Option String := none
  deriving Repr, DecidableEq

/-- One formatted moving-average entry of the remote path. -/
structure Ma where
  name : String
  maType : String
  value : ℚ
  signal : String
  deriving Repr, DecidableEq

/-- The summary triplet returned by `_generate_summaries` (both paths). -/
structure Summaries where
  overall : String
  technicalIndicators : String
  movingAverages : String
  deriving Repr, DecidableEq

/-! ## Remote path: signal classification and summary aggregation -/

/-- Embedding of `TaapiClient._get_rsi_signal` (taapi_client.py lines 684-691). -/
def getRsiSignal (value : ℚ) : String :=
  if value < 30 then "Buy"
  else if value > 70 then "Sell"
  else "Neutral"

/-- Embedding of `TaapiClient._get_stoch_signal` (taapi_client.py lines 693-700). -/
def getStochSignal (kValue : ℚ) (_dValue : ℚ) : String :=
  if kValue < 20 then "Buy"
  else if kValue > 80 then "Sell"
  else "Neutral"

/-- Embedding of `TaapiClient._get_summary_label` (taapi_client.py lines
665-682).  The float ratios `buy_count / total` are modelled as exact
rationals. -/
def getSummaryLabel (buyCount sellCount total : Nat) : String :=
  if total = 0 then "Neutral"
  else
    let buyRatio : ℚ := (buyCount : ℚ) / (total : ℚ)
    let sellRatio : ℚ := (sellCount : ℚ) / (total : ℚ)
    if buyRatio ≥ 7/10 then "Strong Buy"
    else if buyRatio ≥ 1/2 then "Buy"
    else if sellRatio ≥ 7/10 then "Strong Sell"
    else if sellRatio ≥ 1/2 then "Sell"
    else "Neutral"

/-- Embedding of `TaapiClient._generate_summaries` (taapi_client.py lines
623-663): count entries whose `signal` is exactly `"Buy"` / exactly `"Sell"`,
then apply `_get_summary_label` to the technical set, the moving-average set,
and the union of both sets. -/
def generateSummariesRemote (technicalIndicators : List Ind)
    (movingAverages : List Ma) : Summaries :=
  let techBuy := (technicalIndicators.filter (fun i => i.signal = "Buy")).length
  let techSell := (technicalIndicators.filter (fun i => i.signal = "Sell")).length
  let techTotal := technicalIndicators.length
  let maBuy := (movingAverages.filter (fun m => m.signal = "Buy")).length
  let maSell := (movingAverages.filter (fun m => m.signal = "Sell")).length
  let maTotal := movingAverages.length
  let techSummary := getSummaryLabel techBuy techSell techTotal
  let maSummary := getSummaryLabel maBuy maSell maTotal
  let overallSummary :=
    getSummaryLabel (techBuy + maBuy) (techSell + maSell) (techTotal + maTotal)
  { overall := overallSummary
    technicalIndicators := techSummary
    movingAverages := maSummary }

end TradingBot

namespace TradingBot

/-! ## Claim C1 -/

/-- C1: the summary label is "Strong Buy" if buyCount/n ≥ 0.7, else "Buy" if
buyCount/n ≥ 0.5, else "Strong Sell" if sellCount/n ≥ 0.7, else "Sell" if
sellCount/n ≥ 0.5, else "Neutral"; for n = 0 the label is "Neutral" with no
division; and the remote path applies this one rule independently to the
technical-indicator set, the moving-average set, and the union of both sets. -/
theorem summary_label_rule (b s n : Nat) :
    (n = 0 → getSummaryLabel b s n = "Neutral") ∧
    (0 < n → getSummaryLabel b s n =
      (if (7 : ℚ)/10 ≤ (b : ℚ)/(n : ℚ) then "Strong Buy"
       else if (1 : ℚ)/2 ≤ (b : ℚ)/(n : ℚ) then "Buy"
       else if (7 : ℚ)/10 ≤ (s : ℚ)/(n : ℚ) then "Strong Sell"
       else if (1 : ℚ)/2 ≤ (s : ℚ)/(n : ℚ) then "Sell"
       else "Neutral")) ∧
    (∀ (tech : List Ind) (mas : List Ma),
      generateSummariesRemote tech mas =
        { overall := getSummaryLabel
            ((tech.filter (fun i => i.signal = "Buy")).length +
              (mas.filter (fun m => m.signal = "Buy")).length)
            ((tech.filter (fun i => i.signal = "Sell")).length +
              (mas.filter (fun m => m.signal = "Sell")).length)
            (tech.length + mas.length)
          technicalIndicators := getSummaryLabel
            (tech.filter (fun i => i.signal = "Buy")).length
            (tech.filter (fun i => i.signal = "Sell")).length
            tech.length
          movingAverages := getSummaryLabel
            (mas.filter (fun m => m.signal = "Buy")).length
            (mas.filter (fun m => m.signal = "Sell")).length
            mas.length }) := by
  refine ⟨fun h => by simp [getSummaryLabel, h], fun h => ?_, fun tech mas => rfl⟩
  have hn : n ≠ 0 := Nat.pos_iff_ne_zero.mp h
  simp only [getSummaryLabel, hn, if_false]

/-- Witness for C1 at concrete inputs (n = 0 and n = 10 with 7 buys). -/
theorem summary_label_rule_witness :
    ((0 : Nat) = 0 → getSummaryLabel 0 0 0 = "Neutral") ∧
    (0 < 10 → getSummaryLabel 7 2 10 =
      (if (7 : ℚ)/10 ≤ (7 : ℚ)/(10 : ℚ) then "Strong Buy"
       else if (1 : ℚ)/2 ≤ (7 : ℚ)/(10 : ℚ) then "Buy"
       else if (7 : ℚ)/10 ≤ (2 : ℚ)/(10 : ℚ) then "Strong Sell"
       else if (1 : ℚ)/2 ≤ (2 : ℚ)/(10 : ℚ) then "Sell"
       else "Neutral")) := by
  exact ⟨(summary_label_rule 0 0 0).1, (summary_label_rule 7 2 10).2.1⟩

end TradingBot

namespace TradingBot

/-! ## Remote path: fetch orchestrator (`_fetch_indicators_individually`) -/

/-- The twelve indicator keys of `indicators_config` plus the three EMA keys
(taapi_client.py lines 147-179), in fetch order. -/
def allIndicatorKeys : List String :=
  ["rsi", "macd", "bbands", "obv", "stochrsi", "atr", "vwap", "supertrend",
   "cmf", "ema20", "ema50", "ema200"]

/-- State of one orchestrated fetch: the result dict (per key: `some` payload
on success, `none` for the empty dict stored on failure), the log of keys for
which `_wait_for_rate_limit` preceded a request attempt (one entry per
attempt, in order), and the number of inter-round `time.sleep(retry_delay)`
calls. -/
structure FetchState (V : Type) where
  result : String → Option V
  waitLog : List String
  sleeps : Nat

/-- Dict assignment `result[key] = v`. -/
def setKey {V : Type} (r : String → Option V) (k : String) (v : Option V) :
    String → Option V :=
  fun k' => if k' = k then v else r k'

/-- One pass over a list of keys (used both for the initial fetch, lines
183-198, and for each retry round, lines 238-247): for each key,
`_fetch_single_indicator` first calls `_wait_for_rate_limit` (line 279) and
then attempts the request; on success the payload is stored, on an exception
the empty dict is stored.  `fetch k = none` models the request for `k`
raising. -/
def fetchPass {V : Type} (fetch : String → Option V) :
    List String → FetchState V → FetchState V
  | [], st => st
  | k :: ks, st =>
      fetchPass fetch ks
        { result := setKey st.result k (fetch k)
          waitLog := st.waitLog ++ [k]
          sleeps := st.sleeps }

/-- The keys considered missing at the start of a retry round (lines
206-216): those whose stored value is absent or the empty dict. -/
def missingKeys {V : Type} (st : FetchState V) (keys : List String) :
    List String :=
  keys.filter (fun k => (st.result k).isNone)

/-- The retry loop `for retry_attempt in range(1, max_retries + 1)` (lines
204-247).  `fuel` is the number of loop iterations still allowed; the
iteration with `fuel = 1` is the final attempt, which breaks and accepts the
partial result without re-fetching (lines 228-230); every earlier iteration
with a nonempty missing list sleeps `retry_delay` once and re-fetches exactly
the missing keys. -/
def retryRounds {V : Type} (fetch : String → Option V) (keys : List String) :
    Nat → FetchState V → FetchState V
  | 0, st => st
  | fuel + 1, st =>
      let missing := missingKeys st keys
      if missing.isEmpty then st
      else if fuel = 0 then st
      else retryRounds fetch keys fuel
        (fetchPass fetch missing { st with sleeps := st.sleeps + 1 })

/-- Embedding of `TaapiClient._fetch_indicators_individually` (lines
124-254): initial pass over all keys, then up to `maxRetries` retry rounds. -/
def fetchIndicatorsIndividually {V : Type} (fetch : String → Option V)
    (keys : List String) (maxRetries : Nat) : FetchState V :=
  retryRounds fetch keys maxRetries
    (fetchPass fetch keys { result := fun _ => none, waitLog := [], sleeps := 0 })

theorem fetchPass_result {V : Type} (fetch : String → Option V) :
    ∀ (ks : List String) (st : FetchState V) (k : String),
      (fetchPass fetch ks st).result k =
        if k ∈ ks then fetch k else st.result k := by
  intro ks
  induction ks with
  | nil => intro st k; simp [fetchPass]
  | cons a ks ih =>
      intro st k
      simp only [fetchPass, ih, setKey, List.mem_cons]
      by_cases hk : k ∈ ks
      · simp [hk]
      · by_cases hka : k = a <;> simp [hka, hk]

theorem fetchPass_waitLog {V : Type} (fetch : String → Option V) :
    ∀ (ks : List String) (st : FetchState V),
      (fetchPass fetch ks st).waitLog = st.waitLog ++ ks := by
  intro ks
  induction ks with
  | nil => intro st; simp [fetchPass]
  | cons a ks ih => intro st; simp [fetchPass, ih]

/-- Invariant: once every key of `keys` holds exactly what a (deterministic)
fetch of it yields, further retry rounds never change the result map. -/
theorem retryRounds_result {V : Type} (fetch : String → Option V)
    (keys : List String) :
    ∀ (fuel : Nat) (st : FetchState V),
      (∀ k, k ∈ keys → st.result k = fetch k) →
      ∀ k, k ∈ keys → (retryRounds fetch keys fuel st).result k = fetch k := by
  intro fuel
  induction fuel with
  | zero => intro st h k hk; simpa [retryRounds] using h k hk
  | succ fuel ih =>
      intro st h k hk
      simp only [retryRounds]
      by_cases hm : (missingKeys st keys).isEmpty
      · simpa [hm] using h k hk
      · by_cases hf : fuel = 0
        · simpa [hm, hf] using h k hk
        · simp only [hm, hf, if_false, Bool.false_eq_true]
          refine ih _ ?_ k hk
          intro k' hk'
          rw [fetchPass_result]
          by_cases hmem : k' ∈ missingKeys st keys <;> simp [hmem, h k' hk']

/-- With a deterministic fetch the missing set is the same in every round:
the keys whose fetch fails. -/
theorem missingKeys_of_inv {V : Type} (fetch : String → Option V)
    (keys : List String) (st : FetchState V)
    (h : ∀ k, k ∈ keys → st.result k = fetch k) :
    missingKeys st keys = keys.filter (fun k => (fetch k).isNone) := by
  unfold missingKeys
  exact List.filter_congr (fun k hk => by rw [h k hk])

end TradingBot

namespace TradingBot

theorem flatten_replicate_length (M : List String) :
    ∀ n : Nat, ((List.replicate n M).flatten).length = n * M.length := by
  intro n
  induction n with
  | zero => simp
  | succ n ih => simp [List.replicate_succ, ih, Nat.succ_mul, Nat.add_comm]

theorem flatten_replicate_count (M : List String) (k : String) :
    ∀ n : Nat, ((List.replicate n M).flatten).count k = n * M.count k := by
  intro n
  induction n with
  | zero => simp
  | succ n ih =>
      simp [List.replicate_succ, List.count_append, ih, Nat.succ_mul,
        Nat.add_comm]

/-- With a deterministic fetch whose failing-key set `M` is nonempty, every
retry round re-fetches exactly `M`, and the final round breaks without
fetching: `fuel` rounds contribute `fuel - 1` copies of `M` to the wait log. -/
theorem retryRounds_waitLog {V : Type} (fetch : String → Option V)
    (keys M : List String)
    (hM : M = keys.filter (fun k => (fetch k).isNone)) (hne : M ≠ []) :
    ∀ (fuel : Nat) (st : FetchState V),
      (∀ k, k ∈ keys → st.result k = fetch k) →
      (retryRounds fetch keys fuel st).waitLog =
        st.waitLog ++ (List.replicate (fuel - 1) M).flatten := by
  intro fuel
  induction fuel with
  | zero => intro st _; simp [retryRounds]
  | succ fuel ih =>
      intro st hinv
      have hmiss : missingKeys st keys = M := by
        rw [missingKeys_of_inv fetch keys st hinv, hM]
      have hempty : (missingKeys st keys).isEmpty = false := by
        rw [hmiss]
        exact List.isEmpty_eq_false_iff_exists_mem.mpr
          (List.exists_mem_of_ne_nil M hne)
      by_cases hf : fuel = 0
      · simp [retryRounds, hempty, hmiss, hf]
      · have hrec : retryRounds fetch keys (fuel + 1) st =
            retryRounds fetch keys fuel
              (fetchPass fetch M { st with sleeps := st.sleeps + 1 }) := by
          have hMempty : M.isEmpty = false := by rw [← hmiss]; exact hempty
          simp only [retryRounds, hmiss, hempty, hMempty, Bool.false_eq_true,
            if_false, hf]
        rw [hrec, ih]
        · rw [fetchPass_waitLog]
          have hfuel : fuel - 1 + 1 = fuel := Nat.succ_pred_eq_of_pos
            (Nat.pos_of_ne_zero hf)
          have : List.replicate fuel M = M :: List.replicate (fuel - 1) M := by
            conv_lhs => rw [← hfuel]
            rw [List.replicate_succ]
          simp [this]
        · intro k hk
          rw [fetchPass_result]
          by_cases hmem : k ∈ M <;> simp [hmem, hinv k hk]

/-! ## Claim C2 -/

/-- C2: for `fetch_all` over the 12 indicator specs with 3 keys always
failing and 9 always succeeding and `maxRetries = 5`: the final result map
has exactly 9 populated and 3 empty entries, `wait_for_slot` precedes every
one of the `9 + 3*5 = 24` request attempts (the wait log has one entry per
attempt), a key that already succeeded is never re-fetched in any retry
round, and the run produces a value (the orchestrator absorbs per-indicator
failures rather than raising). -/
theorem fetch_orchestrator_partial_failure {V : Type}
    (fetch : String → Option V)
    (hfail : (allIndicatorKeys.filter (fun k => (fetch k).isNone)).length = 3) :
    ((allIndicatorKeys.filter (fun k =>
        ((fetchIndicatorsIndividually fetch allIndicatorKeys 5).result k).isSome)).length = 9) ∧
    ((allIndicatorKeys.filter (fun k =>
        ((fetchIndicatorsIndividually fetch allIndicatorKeys 5).result k).isNone)).length = 3) ∧
    ((fetchIndicatorsIndividually fetch allIndicatorKeys 5).waitLog.length
        = 9 + 3 * 5) ∧
    (∀ k, k ∈ allIndicatorKeys → (fetch k).isSome →
      (fetchIndicatorsIndividually fetch allIndicatorKeys 5).waitLog.count k = 1) := by
  set M : List String := allIndicatorKeys.filter (fun k => (fetch k).isNone)
    with hM
  have hne : M ≠ [] := by
    intro h
    rw [h] at hfail
    simp at hfail
  have hinv0 : ∀ k, k ∈ allIndicatorKeys →
      (fetchPass fetch allIndicatorKeys
        { result := fun _ => none, waitLog := [], sleeps := 0 } :
          FetchState V).result k = fetch k := by
    intro k hk
    rw [fetchPass_result]
    simp [hk]
  have hres : ∀ k, k ∈ allIndicatorKeys →
      (fetchIndicatorsIndividually fetch allIndicatorKeys 5).result k
        = fetch k := by
    intro k hk
    exact retryRounds_result fetch allIndicatorKeys 5 _ hinv0 k hk
  have hlog : (fetchIndicatorsIndividually fetch allIndicatorKeys 5).waitLog
      = allIndicatorKeys ++ (List.replicate 4 M).flatten := by
    unfold fetchIndicatorsIndividually
    rw [retryRounds_waitLog fetch allIndicatorKeys M hM hne 5 _ hinv0,
      fetchPass_waitLog]
    simp
  have hfilter_some :
      allIndicatorKeys.filter (fun k =>
        ((fetchIndicatorsIndividually fetch allIndicatorKeys 5).result k).isSome)
      = allIndicatorKeys.filter (fun k => (fetch k).isSome) :=
    List.filter_congr (fun k hk => by rw [hres k hk])
  have hfilter_none :
      allIndicatorKeys.filter (fun k =>
        ((fetchIndicatorsIndividually fetch allIndicatorKeys 5).result k).isNone)
      = allIndicatorKeys.filter (fun k => (fetch k).isNone) :=
    List.filter_congr (fun k hk => by rw [hres k hk])
  have hlen : (allIndicatorKeys.filter (fun k => (fetch k).isSome)).length = 9 := by
    have hsplit : (allIndicatorKeys.filter (fun k => (fetch k).isSome)).length +
        (allIndicatorKeys.filter (fun k => (fetch k).isNone)).length
        = allIndicatorKeys.length := by
      rw [← List.countP_eq_length_filter, ← List.countP_eq_length_filter]
      have := List.length_eq_countP_add_countP
        (p := fun k => (fetch k).isSome) (l := allIndicatorKeys)
      rw [this]
      congr 1
      exact List.countP_congr (fun k _ => by cases fetch k <;> simp)
    rw [hfail] at hsplit
    have h12 : allIndicatorKeys.length = 12 := by decide
    omega
  refine ⟨by rw [hfilter_some]; exact hlen, by rw [hfilter_none]; exact hfail,
    ?_, ?_⟩
  · rw [hlog]
    simp only [List.length_append, flatten_replicate_length]
    rw [hfail]
    have h12 : allIndicatorKeys.length = 12 := by decide
    omega
  · intro k hk hsome
    have hkM : k ∉ M := by
      rw [hM]
      intro hmem
      have := (List.mem_filter.mp hmem).2
      simp [Option.isNone_iff_eq_none] at this
      rw [this] at hsome
      simp at hsome
    rw [hlog, List.count_append, flatten_replicate_count,
      List.count_eq_zero_of_not_mem hkM]
    have hnodup : allIndicatorKeys.Nodup := by decide
    have := List.count_eq_one_of_mem hnodup hk
    omega

/-- Witness for C2: a concrete fetch oracle where exactly the keys `obv`,
`vwap` and `cmf` always fail and the other nine always succeed. -/
theorem fetch_orchestrator_partial_failure_witness :
    ((allIndicatorKeys.filter (fun k =>
      ((fun k => if k = "obv" ∨ k = "vwap" ∨ k = "cmf" then (none : Option Unit)
        else some ()) k).isNone)).length = 3) ∧
    ((allIndicatorKeys.filter (fun k =>
        ((fetchIndicatorsIndividually
          (fun k => if k = "obv" ∨ k = "vwap" ∨ k = "cmf" then (none : Option Unit)
            else some ()) allIndicatorKeys 5).result k).isSome)).length = 9) := by
  refine ⟨by decide, ?_⟩
  exact (fetch_orchestrator_partial_failure
    (fun k => if k = "obv" ∨ k = "vwap" ∨ k = "cmf" then (none : Option Unit)
      else some ()) (by decide)).1

end TradingBot

namespace TradingBot

/-! ## Rate limiter (`_wait_for_rate_limit`, taapi_client.py lines 51-67)

The wall-clock readings and `time.sleep` are modelled by a trace of clock
observations: each call to `_wait_for_rate_limit` observes the clock once on
entry (`tEntry`, line 59) and once after the conditional sleep (`tGrant`,
line 67, the value stored into `self.last_request_time`).  The physical
behaviour of the clock and of `time.sleep` is captured by the hypothesis that
the second reading is at least the first reading plus the requested sleep
duration. -/

/-- The sleep duration computed by lines 62-65: sleep
`delay - (cur - last)` when the elapsed time since the last grant is below
the configured delay, otherwise do not sleep. -/
def sleepNeeded (delay last cur : ℚ) : ℚ :=
  if cur - last < delay then delay - (cur - last) else 0

/-- The value of `self.last_request_time` after one call, given the two clock
readings of that call: with a non-positive delay the method returns early
without updating the timestamp (lines 56-57), otherwise it stores the
post-sleep reading (line 67). -/
def rateLimitNewLast (delay last _tEntry tGrant : ℚ) : ℚ :=
  if delay ≤ 0 then last else tGrant

/-- A trace of calls is faithful to the clock when, for every call, the
post-sleep reading is at least the entry reading plus the sleep actually
requested for it (`time.sleep` never returns early and clock readings do not
decrease across a sleep). -/
def ValidReads (delay : ℚ) : ℚ → List (ℚ × ℚ) → Prop
  | _, [] => True
  | last, (tEntry, tGrant) :: rest =>
      tEntry + sleepNeeded delay last tEntry ≤ tGrant ∧
      ValidReads delay (rateLimitNewLast delay last tEntry tGrant) rest

/-- The sequence of granted-slot timestamps produced by a trace of calls. -/
def grantTimes (delay : ℚ) : ℚ → List (ℚ × ℚ) → List ℚ
  | _, [] => []
  | last, (tEntry, tGrant) :: rest =>
      rateLimitNewLast delay last tEntry tGrant ::
        grantTimes delay (rateLimitNewLast delay last tEntry tGrant) rest

theorem rateLimit_step (delay last tEntry tGrant : ℚ) (hd : 0 < delay)
    (hvalid : tEntry + sleepNeeded delay last tEntry ≤ tGrant) :
    last + delay ≤ rateLimitNewLast delay last tEntry tGrant := by
  have hnotle : ¬ delay ≤ 0 := not_le.mpr hd
  unfold rateLimitNewLast
  rw [if_neg hnotle]
  unfold sleepNeeded at hvalid
  by_cases h : tEntry - last < delay
  · rw [if_pos h] at hvalid
    linarith
  · rw [if_neg h] at hvalid
    have := not_lt.mp h
    linarith

/-! ## Claim C5 -/

/-- C5: for every sequence of sequential calls to `_wait_for_rate_limit` with
configured delay `d > 0`, tracked through the single `last_request_time`
timestamp, every granted slot is at least `d` after the previous granted slot
(and the first at least `d` after the initial timestamp), provided the clock
trace is faithful (each post-sleep reading is at least the entry reading plus
the requested sleep). -/
theorem rate_limiter_spacing (delay : ℚ) (hd : 0 < delay) :
    ∀ (reads : List (ℚ × ℚ)) (last : ℚ), ValidReads delay last reads →
      List.Chain (fun a b => a + delay ≤ b) last (grantTimes delay last reads) := by
  intro reads
  induction reads with
  | nil => intro last _; exact List.Chain.nil
  | cons p rest ih =>
      intro last hvalid
      obtain ⟨tEntry, tGrant⟩ := p
      obtain ⟨hstep, hrest⟩ := hvalid
      exact List.Chain.cons (rateLimit_step delay last tEntry tGrant hd hstep)
        (ih _ hrest)

/-- Witness for C5: a concrete two-call trace with delay 2 starting from
timestamp 0; both spacing constraints hold. -/
theorem rate_limiter_spacing_witness :
    (0 : ℚ) < 2 ∧ ValidReads 2 0 [(1, 3), (7/2, 11/2)] ∧
      List.Chain (fun a b => a + 2 ≤ b) 0
        (grantTimes 2 0 [(1, 3), (7/2, 11/2)]) := by
  refine ⟨by norm_num, ?_, ?_⟩
  · refine ⟨?_, ?_, trivial⟩
    · simp [sleepNeeded]
      norm_num
    · simp [sleepNeeded, rateLimitNewLast]
      norm_num
  · exact rate_limiter_spacing 2 (by norm_num) [(1, 3), (7/2, 11/2)] 0
      ⟨by simp [sleepNeeded]; norm_num,
       by simp [sleepNeeded, rateLimitNewLast]; norm_num, trivial⟩

end TradingBot

namespace TradingBot

/-! ## Remote path: formatting (`_format_technical_indicators`,
`_format_moving_averages`, `_format_to_schema`, `get_technical_analysis`) -/

/-- Entry 1 of `_format_technical_indicators` (lines 489-496): RSI(14),
emitted only when the payload is present and has a `value` key. -/
def rsiBlock (bulk : BulkData) : List Ind :=
  match bulk "rsi" with
  | none => []
  | some p =>
      match p.value with
      | none => []
      | some v => [{ name := "RSI(14)", value := some v, signal := getRsiSignal v }]

/-- Entry 2 (lines 498-508): MACD(12,26); the signal and histogram keys
default to 0 when absent. -/
def macdBlock (bulk : BulkData) : List Ind :=
  match bulk "macd" with
  | none => []
  | some p =>
      match p.valueMACD with
      | none => []
      | some macdVal =>
          let signalVal := p.valueMACDSignal.getD 0
          [{ name := "MACD(12,26)", value := some macdVal
             signal := if macdVal > signalVal then "Buy" else "Sell"
             histogram := some (p.valueMACDHist.getD 0) }]

/-- Entry 3 (lines 510-531): Bollinger Bands; the guard only checks
`valueUpperBand`, so a payload missing `valueMiddleBand` or `valueLowerBand`
raises a `KeyError` (modelled as `Except.error`). -/
def bbandsBlock (bulk : BulkData) : Except String (List Ind) :=
  match bulk "bbands" with
  | none => .ok []
  | some p =>
      match p.valueUpperBand with
      | none => .ok []
      | some upper =>
          match p.valueMiddleBand, p.valueLowerBand with
          | some middle, some lower =>
              let currentPrice := p.close.getD middle
              let signal :=
                if currentPrice ≥ upper then "Overbought"
                else if currentPrice ≤ lower then "Oversold"
                else "Neutral"
              .ok [{ name := "Bollinger Bands(20,2)", upper := some upper
                     middle := some middle, lower := some lower
                     signal := signal }]
          | _, _ => .error "KeyError"

/-- Entry 4 (lines 533-540): OBV. -/
def obvBlock (bulk : BulkData) : List Ind :=
  match bulk "obv" with
  | none => []
  | some p =>
      match p.value with
      | none => []
      | some v =>
          [{ name := "OBV", value := some v
             signal := if v > 0 then "Accumulation" else "Distribution" }]

/-- Entry 5 (lines 542-550): StochRSI, keyed on `valueK`. -/
def stochrsiBlock (bulk : BulkData) : List Ind :=
  match bulk "stochrsi" with
  | none => []
  | some p =>
      match p.valueK with
      | none => []
      | some kVal =>
          [{ name := "StochRSI", value := some kVal
             signal := getStochSignal kVal (p.valueD.getD 50) }]

/-- Entry 6 (lines 552-560): ATR(14). -/
def atrBlock (bulk : BulkData) : List Ind :=
  match bulk "atr" with
  | none => []
  | some p =>
      match p.value with
      | none => []
      | some v =>
          [{ name := "ATR(14)", value := some v
             signal := if v > 0 then "High Volatility" else "Low Volatility" }]

/-- Entry 7 (lines 562-571): VWAP; the comparison price defaults to 0 when
the payload has no `close`. -/
def vwapBlock (bulk : BulkData) : List Ind :=
  match bulk "vwap" with
  | none => []
  | some p =>
      match p.value with
      | none => []
      | some v =>
          let currentPrice := p.close.getD 0
          [{ name := "VWAP", value := some v
             signal := if currentPrice > v then "Bullish" else "Bearish" }]

/-- Entry 8 (lines 573-583): SuperTrend; `trend` defaults to 1. -/
def supertrendBlock (bulk : BulkData) : List Ind :=
  match bulk "supertrend" with
  | none => []
  | some p =>
      match p.value with
      | none => []
      | some v =>
          let trend := p.trend.getD 1
          [{ name := "SuperTrend", value := some v
             signal := if trend = 1 then "Buy" else "Sell"
             trend := some (if trend = 1 then "Uptrend" else "Downtrend") }]

/-- Entry 9 (lines 585-593): CMF(20). -/
def cmfBlock (bulk : BulkData) : List Ind :=
  match bulk "cmf" with
  | none => []
  | some p =>
      match p.value with
      | none => []
      | some v =>
          [{ name := "CMF(20)", value := some v
             signal := if v > 0 then "Buying Pressure" else "Selling Pressure" }]

/-- Embedding of `TaapiClient._format_technical_indicators` (lines 485-595):
the nine candidate entries appended in canonical order, each skipped when its
payload or required key is missing. -/
def formatTechnicalIndicators (bulk : BulkData) : Except String (List Ind) := do
  let bb ← bbandsBlock bulk
  return rsiBlock bulk ++ macdBlock bulk ++ bb ++ obvBlock bulk ++
    stochrsiBlock bulk ++ atrBlock bulk ++ vwapBlock bulk ++
    supertrendBlock bulk ++ cmfBlock bulk

/-- One iteration of the loop of `_format_moving_averages` (lines 597-616). -/
def maBlock (bulk : BulkData) (currentPrice : ℚ) (period : Nat) : List Ma :=
  match bulk ("ema" ++ toString period) with
  | none => []
  | some p =>
      match p.value with
      | none => []
      | some v =>
          [{ name := "MA" ++ toString period, maType := "Exponential"
             value := v
             signal := if currentPrice > v then "Buy" else "Sell" }]

/-- Embedding of `TaapiClient._format_moving_averages` (lines 597-616). -/
def formatMovingAverages (bulk : BulkData) (currentPrice : ℚ) : List Ma :=
  maBlock bulk currentPrice 20 ++ maBlock bulk currentPrice 50 ++
    maBlock bulk currentPrice 200

/-- One pivot-point set (shared by both paths, §3 of the schema). -/
structure PivotSet where
  ptype : String
  pivot : ℚ
  r1 : ℚ
  r2 : ℚ
  r3 : ℚ
  s1 : ℚ
  s2 : ℚ
  s3 : ℚ
  deriving Repr, DecidableEq

/-- Price data returned by `_get_price` (lines 389-424): always a dict with
`value` and `close` keys. -/
structure PriceData where
  value : ℚ
  close : ℚ
  deriving Repr, DecidableEq

/-- The canonical record assembled by `_format_to_schema` (lines 426-483). -/
structure FormattedData where
  symbol : String
  price : ℚ
  priceChange : ℚ
  priceChangePercent : ℚ
  summary : Summaries
  technicalIndicators : List Ind
  movingAverages : List Ma
  pivotPoints : List PivotSet
  sourceUrl : String
  scrapedAt : String
  metadata : List (String × String)

/-- Embedding of `TaapiClient._format_to_schema` (lines 426-483).  `now`
stands for the `datetime.utcnow()` reading. -/
def formatToSchema (symbol : String) (bulk : BulkData) (price : PriceData)
    (exchange interval now : String) : Except String FormattedData := do
  let currentPrice := price.value
  let priceChangePercent : ℚ :=
    match bulk "roc" with
    | some p => p.value.getD 0
    | none => 0
  let priceChange := currentPrice * (priceChangePercent / 100)
  let tech ← formatTechnicalIndicators bulk
  let mas := formatMovingAverages bulk currentPrice
  return { symbol := symbol
           price := currentPrice
           priceChange := priceChange
           priceChangePercent := priceChangePercent
           summary := generateSummariesRemote tech mas
           technicalIndicators := tech
           movingAverages := mas
           pivotPoints := []
           sourceUrl := "https://www." ++ exchange ++ ".com/trade/" ++ symbol ++ "_USDT"
           scrapedAt := now
           metadata := [("exchange", exchange), ("interval", interval),
                        ("provider", "taapi.io")] }

/-- The dict returned by `get_technical_analysis` (lines 109-122): a success
envelope around the formatted record, or an error envelope. -/
inductive TAResponse where
  | success (data : FormattedData) (source scrapedAt : String)
  | failure (error symbol : String)

/-- Embedding of `TaapiClient.get_technical_analysis` (lines 69-122): the
whole body runs inside `try/except Exception`, so any collaborator failure
(modelled by the `Except.error` channel of `fetched`) or internal exception
is converted into the failure envelope instead of propagating. -/
def getTechnicalAnalysis (symbol exchange interval now : String)
    (fetched : Except String (BulkData × PriceData)) : TAResponse :=
  match fetched with
  | .error e => .failure e symbol
  | .ok (bulk, price) =>
      match formatToSchema symbol bulk price exchange interval now with
      | .error e => .failure e symbol
      | .ok d => .success d "taapi.io" now

end TradingBot

namespace TradingBot

/-- A bulk result in which no indicator was fetched (every key holds the
empty dict). -/
def emptyBulk : BulkData := fun _ => none

/-- A bulk result in which all 12 indicators were fetched with their
required keys populated. -/
def fullBulk : BulkData := fun k =>
  if k = "rsi" then some { value := some 50 }
  else if k = "macd" then some { valueMACD := some 1 }
  else if k = "bbands" then
    some { valueUpperBand := some 110, valueMiddleBand := some 100,
           valueLowerBand := some 90 }
  else if k = "obv" then some { value := some 5 }
  else if k = "stochrsi" then some { valueK := some 50 }
  else if k = "atr" then some { value := some 1 }
  else if k = "vwap" then some { value := some 99 }
  else if k = "supertrend" then some { value := some 100 }
  else if k = "cmf" then some { value := some (1/10) }
  else if k = "ema20" then some { value := some 95 }
  else if k = "ema50" then some { value := some 96 }
  else if k = "ema200" then some { value := some 97 }
  else none

/-- Whether a `get_technical_analysis` response is the success envelope. -/
def isSuccess : TAResponse → Bool
  | .success _ _ _ => true
  | .failure _ _ => false

/-- The metadata of the record inside a success response. -/
def taRespMetadata : TAResponse → Option (List (String × String))
  | .success d _ _ => some d.metadata
  | .failure _ _ => none

/-! ## Claim C3 -/

/-- Counterexample to C3 as stated: a record assembled from a fully-failed
fetch (0 of 12 indicators) and one from a fully-successful fetch (12 of 12)
carry byte-identical metadata, holding only the constant keys `exchange`,
`interval`, `provider` — so the metadata contains no field describing how
many indicators were fetched, and a silently empty record is produced
without any explanation in its metadata. -/
theorem remote_metadata_no_success_ratio_cex :
    (((formatToSchema "BTC" emptyBulk { value := 100, close := 100 }
        "binance" "1h" "t").map
      (fun d => (d.technicalIndicators.length + d.movingAverages.length,
        d.metadata))).toOption
      = some (0, [("exchange", "binance"), ("interval", "1h"),
                 ("provider", "taapi.io")])) ∧
    (((formatToSchema "BTC" fullBulk { value := 100, close := 100 }
        "binance" "1h" "t").map
      (fun d => (d.technicalIndicators.length + d.movingAverages.length,
        d.metadata))).toOption
      = some (12, [("exchange", "binance"), ("interval", "1h"),
                  ("provider", "taapi.io")])) := by
  constructor <;> decide

/-- C3 (amended): `get_technical_analysis` never raises — every input,
including any collaborator failure, yields either the success envelope or
the error envelope — and any record it assembles carries metadata holding
exactly the constant fields `exchange`, `interval` and `provider`; no
success-ratio field is present (the fetch success count is only logged). -/
theorem fetch_from_remote_total_and_metadata
    (symbol exchange interval now : String)
    (fetched : Except String (BulkData × PriceData)) :
    ((∃ d src t,
        getTechnicalAnalysis symbol exchange interval now fetched
          = .success d src t) ∨
     (∃ e s,
        getTechnicalAnalysis symbol exchange interval now fetched
          = .failure e s)) ∧
    (∀ d src t,
        getTechnicalAnalysis symbol exchange interval now fetched
          = .success d src t →
        d.metadata = [("exchange", exchange), ("interval", interval),
                      ("provider", "taapi.io")]) := by
  have hmeta : ∀ (bulk : BulkData) (price : PriceData) (d : FormattedData),
      formatToSchema symbol bulk price exchange interval now = .ok d →
      d.metadata = [("exchange", exchange), ("interval", interval),
                    ("provider", "taapi.io")] := by
    intro bulk price d hd
    unfold formatToSchema at hd
    cases htech : formatTechnicalIndicators bulk with
    | error e =>
        rw [htech] at hd
        simp [Bind.bind, Except.bind] at hd
    | ok tech =>
        rw [htech] at hd
        simp only [Bind.bind, Except.bind, pure, Except.pure, Except.ok.injEq] at hd
        rw [← hd]
  constructor
  · cases hf : fetched with
    | error e => right; exact ⟨e, symbol, by simp [getTechnicalAnalysis]⟩
    | ok bp =>
        obtain ⟨bulk, price⟩ := bp
        cases hs : formatToSchema symbol bulk price exchange interval now with
        | error e =>
            right
            exact ⟨e, symbol, by simp [getTechnicalAnalysis, hs]⟩
        | ok d =>
            left
            exact ⟨d, "taapi.io", now, by simp [getTechnicalAnalysis, hs]⟩
  · intro d src t hd
    cases hf : fetched with
    | error e => rw [hf] at hd; simp [getTechnicalAnalysis] at hd
    | ok bp =>
        obtain ⟨bulk, price⟩ := bp
        rw [hf] at hd
        cases hs : formatToSchema symbol bulk price exchange interval now with
        | error e => simp [getTechnicalAnalysis, hs] at hd
        | ok d' =>
            simp only [getTechnicalAnalysis, hs, TAResponse.success.injEq] at hd
            exact hd.1 ▸ hmeta bulk price d' hs

/-- Witness for C3 (amended) at a concrete fully-successful fetch. -/
theorem fetch_from_remote_total_and_metadata_witness :
    taRespMetadata (getTechnicalAnalysis "BTC" "binance" "1h" "t"
      (.ok (fullBulk, { value := 100, close := 100 }))) =
      some [("exchange", "binance"), ("interval", "1h"),
            ("provider", "taapi.io")] := by
  obtain ⟨hcases, hmeta⟩ := fetch_from_remote_total_and_metadata
    "BTC" "binance" "1h" "t" (.ok (fullBulk, { value := 100, close := 100 }))
  have hsucc : isSuccess (getTechnicalAnalysis "BTC" "binance" "1h" "t"
      (.ok (fullBulk, { value := 100, close := 100 }))) = true := by decide
  rcases hcases with ⟨d, src, t, hd⟩ | ⟨e, s, hd⟩
  · rw [hd, taRespMetadata]
    exact congrArg some (hmeta d src t hd)
  · rw [hd] at hsucc
    simp [isSuccess] at hsucc

end TradingBot


namespace TradingBot

/-- The signal vocabulary each formatted entry of the remote path can carry,
keyed by entry name. -/
def signalVocabOf (name : String) : List String :=
  if name = "RSI(14)" then ["Buy", "Sell", "Neutral"]
  else if name = "MACD(12,26)" then ["Buy", "Sell"]
  else if name = "Bollinger Bands(20,2)" then ["Overbought", "Oversold", "Neutral"]
  else if name = "OBV" then ["Accumulation", "Distribution"]
  else if name = "StochRSI" then ["Buy", "Sell", "Neutral"]
  else if name = "ATR(14)" then ["High Volatility", "Low Volatility"]
  else if name = "VWAP" then ["Bullish", "Bearish"]
  else if name = "SuperTrend" then ["Buy", "Sell"]
  else if name = "CMF(20)" then ["Buying Pressure", "Selling Pressure"]
  else []

theorem rsiBlock_shape (bulk : BulkData) :
    rsiBlock bulk = [] ∨ ∃ i, rsiBlock bulk = [i] ∧ i.name = "RSI(14)" ∧
      i.signal ∈ signalVocabOf "RSI(14)" := by
  cases h : bulk "rsi" with
  | none => left; simp [rsiBlock, h]
  | some p =>
      cases hv : p.value with
      | none => left; simp [rsiBlock, h, hv]
      | some v =>
          right
          refine ⟨{ name := "RSI(14)", value := some v
                    signal := getRsiSignal v },
            by simp [rsiBlock, h, hv], rfl, ?_⟩
          show getRsiSignal v ∈ _
          unfold getRsiSignal
          split_ifs <;> decide

theorem macdBlock_shape (bulk : BulkData) :
    macdBlock bulk = [] ∨ ∃ i, macdBlock bulk = [i] ∧ i.name = "MACD(12,26)" ∧
      i.signal ∈ signalVocabOf "MACD(12,26)" := by
  cases h : bulk "macd" with
  | none => left; simp [macdBlock, h]
  | some p =>
      cases hv : p.valueMACD with
      | none => left; simp [macdBlock, h, hv]
      | some v =>
          right
          refine ⟨{ name := "MACD(12,26)", value := some v
                    signal := if v > p.valueMACDSignal.getD 0 then "Buy" else "Sell"
                    histogram := some (p.valueMACDHist.getD 0) },
            by simp [macdBlock, h, hv], rfl, ?_⟩
          show (if v > p.valueMACDSignal.getD 0 then "Buy" else "Sell") ∈ _
          split_ifs <;> decide

theorem bbandsBlock_shape (bulk : BulkData) (l : List Ind)
    (h : bbandsBlock bulk = .ok l) :
    l = [] ∨ ∃ i, l = [i] ∧ i.name = "Bollinger Bands(20,2)" ∧
      i.signal ∈ signalVocabOf "Bollinger Bands(20,2)" := by
  cases hb : bulk "bbands" with
  | none => left; rw [bbandsBlock, hb] at h; cases h; rfl
  | some p =>
      cases hu : p.valueUpperBand with
      | none => left; rw [bbandsBlock, hb] at h; simp only [hu] at h; cases h; rfl
      | some u =>
          cases hm : p.valueMiddleBand with
          | none =>
              rw [bbandsBlock, hb] at h
              simp only [hu, hm] at h
              simp at h
          | some m =>
              cases hl : p.valueLowerBand with
              | none =>
                  rw [bbandsBlock, hb] at h
                  simp only [hu, hm, hl] at h
                  simp at h
              | some lo =>
                  rw [bbandsBlock, hb] at h
                  simp only [hu, hm, hl, Except.ok.injEq] at h
                  right
                  refine ⟨{ name := "Bollinger Bands(20,2)"
                            signal := if p.close.getD m ≥ u then "Overbought"
                              else if p.close.getD m ≤ lo then "Oversold"
                              else "Neutral"
                            upper := some u, middle := some m
                            lower := some lo },
                    h.symm, rfl, ?_⟩
                  show (if p.close.getD m ≥ u then "Overbought"
                    else if p.close.getD m ≤ lo then "Oversold"
                    else "Neutral") ∈ _
                  split_ifs <;> decide

theorem obvBlock_shape (bulk : BulkData) :
    obvBlock bulk = [] ∨ ∃ i, obvBlock bulk = [i] ∧ i.name = "OBV" ∧
      i.signal ∈ signalVocabOf "OBV" := by
  cases h : bulk "obv" with
  | none => left; simp [obvBlock, h]
  | some p =>
      cases hv : p.value with
      | none => left; simp [obvBlock, h, hv]
      | some v =>
          right
          refine ⟨{ name := "OBV", value := some v
                    signal := if v > 0 then "Accumulation" else "Distribution" },
            by simp [obvBlock, h, hv], rfl, ?_⟩
          show (if v > 0 then "Accumulation" else "Distribution") ∈ _
          split_ifs <;> decide

theorem stochrsiBlock_shape (bulk : BulkData) :
    stochrsiBlock bulk = [] ∨ ∃ i, stochrsiBlock bulk = [i] ∧
      i.name = "StochRSI" ∧ i.signal ∈ signalVocabOf "StochRSI" := by
  cases h : bulk "stochrsi" with
  | none => left; simp [stochrsiBlock, h]
  | some p =>
      cases hv : p.valueK with
      | none => left; simp [stochrsiBlock, h, hv]
      | some v =>
          right
          refine ⟨{ name := "StochRSI", value := some v
                    signal := getStochSignal v (p.valueD.getD 50) },
            by simp [stochrsiBlock, h, hv], rfl, ?_⟩
          show getStochSignal v (p.valueD.getD 50) ∈ _
          unfold getStochSignal
          split_ifs <;> decide

theorem atrBlock_shape (bulk : BulkData) :
    atrBlock bulk = [] ∨ ∃ i, atrBlock bulk = [i] ∧ i.name = "ATR(14)" ∧
      i.signal ∈ signalVocabOf "ATR(14)" := by
  cases h : bulk "atr" with
  | none => left; simp [atrBlock, h]
  | some p =>
      cases hv : p.value with
      | none => left; simp [atrBlock, h, hv]
      | some v =>
          right
          refine ⟨{ name := "ATR(14)", value := some v
                    signal := if v > 0 then "High Volatility" else "Low Volatility" },
            by simp [atrBlock, h, hv], rfl, ?_⟩
          show (if v > 0 then "High Volatility" else "Low Volatility") ∈ _
          split_ifs <;> decide

theorem vwapBlock_shape (bulk : BulkData) :
    vwapBlock bulk = [] ∨ ∃ i, vwapBlock bulk = [i] ∧ i.name = "VWAP" ∧
      i.signal ∈ signalVocabOf "VWAP" := by
  cases h : bulk "vwap" with
  | none => left; simp [vwapBlock, h]
  | some p =>
      cases hv : p.value with
      | none => left; simp [vwapBlock, h, hv]
      | some v =>
          right
          refine ⟨{ name := "VWAP", value := some v
                    signal := if p.close.getD 0 > v then "Bullish" else "Bearish" },
            by simp [vwapBlock, h, hv], rfl, ?_⟩
          show (if p.close.getD 0 > v then "Bullish" else "Bearish") ∈ _
          split_ifs <;> decide

theorem supertrendBlock_shape (bulk : BulkData) :
    supertrendBlock bulk = [] ∨ ∃ i, supertrendBlock bulk = [i] ∧
      i.name = "SuperTrend" ∧ i.signal ∈ signalVocabOf "SuperTrend" := by
  cases h : bulk "supertrend" with
  | none => left; simp [supertrendBlock, h]
  | some p =>
      cases hv : p.value with
      | none => left; simp [supertrendBlock, h, hv]
      | some v =>
          right
          refine ⟨{ name := "SuperTrend", value := some v
                    signal := if p.trend.getD 1 = 1 then "Buy" else "Sell"
                    trend := some (if p.trend.getD 1 = 1 then "Uptrend" else "Downtrend") },
            by simp [supertrendBlock, h, hv], rfl, ?_⟩
          show (if p.trend.getD 1 = 1 then "Buy" else "Sell") ∈ _
          split_ifs <;> decide

theorem cmfBlock_shape (bulk : BulkData) :
    cmfBlock bulk = [] ∨ ∃ i, cmfBlock bulk = [i] ∧ i.name = "CMF(20)" ∧
      i.signal ∈ signalVocabOf "CMF(20)" := by
  cases h : bulk "cmf" with
  | none => left; simp [cmfBlock, h]
  | some p =>
      cases hv : p.value with
      | none => left; simp [cmfBlock, h, hv]
      | some v =>
          right
          refine ⟨{ name := "CMF(20)", value := some v
                    signal := if v > 0 then "Buying Pressure" else "Selling Pressure" },
            by simp [cmfBlock, h, hv], rfl, ?_⟩
          show (if v > 0 then "Buying Pressure" else "Selling Pressure") ∈ _
          split_ifs <;> decide

theorem maBlock_shape (bulk : BulkData) (price : ℚ) (period : Nat) :
    maBlock bulk price period = [] ∨ ∃ m, maBlock bulk price period = [m] ∧
      m.name = "MA" ++ toString period ∧ m.maType = "Exponential" ∧
      m.signal = (if price > m.value then "Buy" else "Sell") := by
  cases h : bulk ("ema" ++ toString period) with
  | none => left; simp [maBlock, h]
  | some p =>
      cases hv : p.value with
      | none => left; simp [maBlock, h, hv]
      | some v =>
          right
          exact ⟨{ name := "MA" ++ toString period, maType := "Exponential"
                   value := v
                   signal := if price > v then "Buy" else "Sell" },
            by simp [maBlock, h, hv], rfl, rfl, rfl⟩

/-- Decomposition of a successful `_format_technical_indicators` run into
its nine candidate blocks. -/
theorem formatTechnicalIndicators_ok (bulk : BulkData) (l : List Ind)
    (h : formatTechnicalIndicators bulk = .ok l) :
    ∃ bb, bbandsBlock bulk = .ok bb ∧
      l = rsiBlock bulk ++ macdBlock bulk ++ bb ++ obvBlock bulk ++
        stochrsiBlock bulk ++ atrBlock bulk ++ vwapBlock bulk ++
        supertrendBlock bulk ++ cmfBlock bulk := by
  unfold formatTechnicalIndicators at h
  cases hbb : bbandsBlock bulk with
  | error e => rw [hbb] at h; simp [Bind.bind, Except.bind] at h
  | ok bb =>
      rw [hbb] at h
      simp only [Bind.bind, Except.bind, pure, Except.pure, Except.ok.injEq] at h
      exact ⟨bb, rfl, h.symm⟩

end TradingBot

namespace TradingBot

theorem rsiBlock_empty (bulk : BulkData)
    (h : (bulk "rsi").bind Payload.value = none) : rsiBlock bulk = [] := by
  cases hb : bulk "rsi" with
  | none => simp [rsiBlock, hb]
  | some p => rw [hb] at h; simp only [Option.some_bind] at h; simp [rsiBlock, hb, h]

theorem macdBlock_empty (bulk : BulkData)
    (h : (bulk "macd").bind Payload.valueMACD = none) : macdBlock bulk = [] := by
  cases hb : bulk "macd" with
  | none => simp [macdBlock, hb]
  | some p => rw [hb] at h; simp only [Option.some_bind] at h; simp [macdBlock, hb, h]

theorem bbandsBlock_empty (bulk : BulkData)
    (h : (bulk "bbands").bind Payload.valueUpperBand = none) :
    bbandsBlock bulk = .ok [] := by
  cases hb : bulk "bbands" with
  | none => simp [bbandsBlock, hb]
  | some p => rw [hb] at h; simp only [Option.some_bind] at h; simp [bbandsBlock, hb, h]

theorem obvBlock_empty (bulk : BulkData)
    (h : (bulk "obv").bind Payload.value = none) : obvBlock bulk = [] := by
  cases hb : bulk "obv" with
  | none => simp [obvBlock, hb]
  | some p => rw [hb] at h; simp only [Option.some_bind] at h; simp [obvBlock, hb, h]

theorem stochrsiBlock_empty (bulk : BulkData)
    (h : (bulk "stochrsi").bind Payload.valueK = none) :
    stochrsiBlock bulk = [] := by
  cases hb : bulk "stochrsi" with
  | none => simp [stochrsiBlock, hb]
  | some p => rw [hb] at h; simp only [Option.some_bind] at h; simp [stochrsiBlock, hb, h]

theorem atrBlock_empty (bulk : BulkData)
    (h : (bulk "atr").bind Payload.value = none) : atrBlock bulk = [] := by
  cases hb : bulk "atr" with
  | none => simp [atrBlock, hb]
  | some p => rw [hb] at h; simp only [Option.some_bind] at h; simp [atrBlock, hb, h]

theorem vwapBlock_empty (bulk : BulkData)
    (h : (bulk "vwap").bind Payload.value = none) : vwapBlock bulk = [] := by
  cases hb : bulk "vwap" with
  | none => simp [vwapBlock, hb]
  | some p => rw [hb] at h; simp only [Option.some_bind] at h; simp [vwapBlock, hb, h]

theorem supertrendBlock_empty (bulk : BulkData)
    (h : (bulk "supertrend").bind Payload.value = none) :
    supertrendBlock bulk = [] := by
  cases hb : bulk "supertrend" with
  | none => simp [supertrendBlock, hb]
  | some p => rw [hb] at h; simp only [Option.some_bind] at h; simp [supertrendBlock, hb, h]

theorem cmfBlock_empty (bulk : BulkData)
    (h : (bulk "cmf").bind Payload.value = none) : cmfBlock bulk = [] := by
  cases hb : bulk "cmf" with
  | none => simp [cmfBlock, hb]
  | some p => rw [hb] at h; simp only [Option.some_bind] at h; simp [cmfBlock, hb, h]

theorem maBlock_empty (bulk : BulkData) (price : ℚ) (period : Nat)
    (h : (bulk ("ema" ++ toString period)).bind Payload.value = none) :
    maBlock bulk price period = [] := by
  cases hb : bulk ("ema" ++ toString period) with
  | none => simp [maBlock, hb]
  | some p => rw [hb] at h; simp only [Option.some_bind] at h; simp [maBlock, hb, h]

theorem mem_block_vocab {blk : List Ind} {n : String}
    (hshape : blk = [] ∨ ∃ j, blk = [j] ∧ j.name = n ∧
      j.signal ∈ signalVocabOf n) :
    ∀ i ∈ blk, i.signal ∈ signalVocabOf i.name := by
  rcases hshape with h | ⟨j, hj, hn, hs⟩ <;> intro i hi
  · simp [h] at hi
  · rw [hj] at hi
    simp at hi
    subst hi
    rw [hn]
    exact hs

theorem mem_maBlock_signal (bulk : BulkData) (price : ℚ) (period : Nat) :
    ∀ m ∈ maBlock bulk price period,
      m.signal = (if price > m.value then "Buy" else "Sell") := by
  rcases maBlock_shape bulk price period with h | ⟨j, hj, _, _, hs⟩ <;> intro m hm
  · simp [h] at hm
  · rw [hj] at hm
    simp at hm
    subst hm
    exact hs

end TradingBot

namespace TradingBot

/-! ## Claim C9 -/

/-- A bulk result holding only an OBV payload with a positive value. -/
def obvOnlyBulk : BulkData :=
  fun k => if k = "obv" then some { value := some 5 } else none

/-- Counterexample to C9 as stated: with only the OBV indicator fetched
(value 5), the remote path's formatted list carries the signal
"Accumulation", which is not one of Buy, Sell, Neutral. -/
theorem remote_signal_vocabulary_cex :
    ((formatTechnicalIndicators obvOnlyBulk).map
      (fun l => l.map Ind.signal)).toOption = some ["Accumulation"] ∧
    "Accumulation" ∉ (["Buy", "Sell", "Neutral"] : List String) := by
  constructor <;> decide

/-- C9 (amended): remote signals obey the stated threshold rules — RSI < 30
Buy / > 70 Sell / else Neutral, MACD line > signal line Buy else Sell, and
price > EMA Buy else Sell for each moving average — but the produced
vocabulary is not restricted to Buy/Sell/Neutral: each entry's signal ranges
over the per-indicator vocabulary (Bollinger: Overbought/Oversold/Neutral;
OBV: Accumulation/Distribution; ATR: High/Low Volatility; VWAP:
Bullish/Bearish; CMF: Buying/Selling Pressure; RSI, MACD, StochRSI,
SuperTrend and the moving averages use Buy/Sell/Neutral). -/
theorem remote_signal_classification :
    (∀ v : ℚ, getRsiSignal v =
      (if v < 30 then "Buy" else if v > 70 then "Sell" else "Neutral")) ∧
    (∀ (bulk : BulkData) (l : List Ind),
      formatTechnicalIndicators bulk = .ok l →
      ∀ i ∈ l, i.signal ∈ signalVocabOf i.name) ∧
    (∀ (bulk : BulkData) (price : ℚ),
      ∀ m ∈ formatMovingAverages bulk price,
        m.signal = (if price > m.value then "Buy" else "Sell")) ∧
    (∀ (bulk : BulkData) (p : Payload) (mv : ℚ), bulk "macd" = some p →
      p.valueMACD = some mv →
      ∀ i ∈ macdBlock bulk,
        i.signal = (if mv > p.valueMACDSignal.getD 0 then "Buy" else "Sell")) := by
  refine ⟨fun v => rfl, ?_, ?_, ?_⟩
  · intro bulk l h i hi
    obtain ⟨bb, hbb, hl⟩ := formatTechnicalIndicators_ok bulk l h
    subst hl
    simp only [List.mem_append] at hi
    rcases hi with ((((((((h1 | h2) | h3) | h4) | h5) | h6) | h7) | h8) | h9)
    · exact mem_block_vocab (rsiBlock_shape bulk) i h1
    · exact mem_block_vocab (macdBlock_shape bulk) i h2
    · exact mem_block_vocab (bbandsBlock_shape bulk bb hbb) i h3
    · exact mem_block_vocab (obvBlock_shape bulk) i h4
    · exact mem_block_vocab (stochrsiBlock_shape bulk) i h5
    · exact mem_block_vocab (atrBlock_shape bulk) i h6
    · exact mem_block_vocab (vwapBlock_shape bulk) i h7
    · exact mem_block_vocab (supertrendBlock_shape bulk) i h8
    · exact mem_block_vocab (cmfBlock_shape bulk) i h9
  · intro bulk price m hm
    unfold formatMovingAverages at hm
    simp only [List.mem_append] at hm
    rcases hm with (h1 | h2) | h3
    · exact mem_maBlock_signal bulk price 20 m h1
    · exact mem_maBlock_signal bulk price 50 m h2
    · exact mem_maBlock_signal bulk price 200 m h3
  · intro bulk p mv hb hmv i hi
    simp only [macdBlock, hb, hmv, List.mem_singleton] at hi
    subst hi
    rfl

/-- The MA20 entry formatted from `fullBulk` at price 100. -/
def ma20Entry : Ma :=
  { name := "MA20", maType := "Exponential", value := 95, signal := "Buy" }

/-- Witness for C9 (amended) at a concrete moving-average entry of the
fully-populated bulk result. -/
theorem remote_signal_classification_witness :
    ma20Entry ∈ formatMovingAverages fullBulk 100 ∧
    ma20Entry.signal =
      (if (100 : ℚ) > ma20Entry.value then "Buy" else "Sell") := by
  refine ⟨by decide, ?_⟩
  exact remote_signal_classification.2.2.1 fullBulk 100 _ (by decide)

end TradingBot


namespace TradingBot

/-! ## Local path: numeric layer
(`indicators_calculator.py` delegating to the `ta`/pandas libraries)

Machine floats are modelled as exact rationals in a reduced-fraction
representation (`MQ`) whose operations the proof kernel can evaluate; `none`
in `QF := Option MQ` models IEEE NaN.  Divisions by zero produce NaN; in this
pipeline a zero divisor only ever arises together with a zero dividend
(0/0), or is immediately multiplied by a zero volume, so the NaN model
agrees with numpy on every value the pipeline can build. -/

/-- An exact rational: numerator and positive denominator, kept reduced by
every operation.  This is the value model for the floats of the local
indicator computation. -/
structure MQ where
  num : Int
  den : Nat
  deriving Repr, DecidableEq

instance (n : Nat) : OfNat MQ n := ⟨⟨n, 1⟩⟩

/-- Build the reduced fraction `n / d` (`d ≠ 0` at every call site). -/
def MQ.normalize (n : Int) (d : Nat) : MQ :=
  let g := n.natAbs.gcd d
  if g = 0 then ⟨0, 1⟩ else ⟨n / g, d / g⟩

def MQ.add (a b : MQ) : MQ :=
  .normalize (a.num * b.den + b.num * a.den) (a.den * b.den)

def MQ.sub (a b : MQ) : MQ :=
  .normalize (a.num * b.den - b.num * a.den) (a.den * b.den)

def MQ.mul (a b : MQ) : MQ := .normalize (a.num * b.num) (a.den * b.den)

/-- Exact division; call sites guard against a zero divisor. -/
def MQ.div (a b : MQ) : MQ :=
  if 0 ≤ b.num then .normalize (a.num * b.den) (a.den * b.num.toNat)
  else .normalize (-(a.num * b.den)) (a.den * b.num.natAbs)

def MQ.lt (a b : MQ) : Bool := a.num * b.den < b.num * a.den

def MQ.le (a b : MQ) : Bool := a.num * b.den ≤ b.num * a.den

def MQ.abs (a : MQ) : MQ := ⟨(a.num.natAbs : Int), a.den⟩

def MQ.max (a b : MQ) : MQ := if MQ.lt a b then b else a

def MQ.min (a b : MQ) : MQ := if MQ.lt b a then b else a

def MQ.listSum (l : List MQ) : MQ := l.foldl MQ.add 0

def MQ.ofNat (n : Nat) : MQ := ⟨n, 1⟩

/-- The exact value of a machine rational as a Mathlib rational. -/
def MQ.toRat (a : MQ) : ℚ := (a.num : ℚ) / (a.den : ℚ)

/-- The exact machine rational of a (reduced) Mathlib rational. -/
def MQ.ofRat (q : ℚ) : MQ := ⟨q.num, q.den⟩

/-- Rational stand-in for float `sqrt`: exact on perfect squares (0 in
particular, the only radicand reaching the claims below). -/
def MQ.sqrtA (q : MQ) : MQ :=
  if q.num ≤ 0 then 0 else .normalize (Nat.sqrt q.num.toNat) (Nat.sqrt q.den)

/-- A machine-float value; `none` is NaN. -/
abbrev QF := Option MQ

def qfAdd : QF → QF → QF
  | some a, some b => some (a.add b)
  | _, _ => none

def qfSub : QF → QF → QF
  | some a, some b => some (a.sub b)
  | _, _ => none

def qfMul : QF → QF → QF
  | some a, some b => some (a.mul b)
  | _, _ => none

def qfDiv : QF → QF → QF
  | some a, some b => if b = 0 then none else some (a.div b)
  | _, _ => none

/-- Float `<`: false whenever either side is NaN. -/
def qfLt : QF → QF → Bool
  | some a, some b => a.lt b
  | _, _ => false

/-- Float `≤`: false whenever either side is NaN. -/
def qfLe : QF → QF → Bool
  | some a, some b => a.le b
  | _, _ => false

/-- `series.shift(1)`: one leading NaN, last element dropped. -/
def shiftSeries (xs : List QF) : List QF := none :: xs.dropLast

/-- `series.diff(1)`: elementwise difference from the previous entry. -/
def diffSeries (xs : List QF) : List QF := List.zipWith qfSub xs (shiftSeries xs)

/-- Minimum of a nonempty rational list (0 for the empty list, unreachable
under a positive rolling window). -/
def listMin : List MQ → MQ
  | [] => 0
  | x :: xs => xs.foldl MQ.min x

def listMax : List MQ → MQ
  | [] => 0
  | x :: xs => xs.foldl MQ.max x

/-- The length-`w` window of positions `i+1-w .. i`. -/
def windowAt (w : Nat) (xs : List QF) (i : Nat) : List QF :=
  (xs.take (i + 1)).drop (i + 1 - w)

/-- `series.rolling(w, min_periods=w).AGG()`: NaN until `w` observations
are available or when the window contains a NaN, else the aggregate of the
window. -/
def rollingOp (w : Nat) (f : List MQ → MQ) (xs : List QF) : List QF :=
  (List.range xs.length).map (fun i =>
    if i + 1 < w then none
    else
      match (windowAt w xs i).mapM id with
      | some vals => some (f vals)
      | none => none)

def rollingMean (w : Nat) (xs : List QF) : List QF :=
  rollingOp w (fun vals => (MQ.listSum vals).div (MQ.ofNat w)) xs

def rollingSum (w : Nat) (xs : List QF) : List QF :=
  rollingOp w (fun vals => MQ.listSum vals) xs

def rollingMin (w : Nat) (xs : List QF) : List QF := rollingOp w listMin xs

def rollingMax (w : Nat) (xs : List QF) : List QF := rollingOp w listMax xs

/-- Population standard deviation (`ddof=0`, as `BollingerBands` passes). -/
def rollingStd (w : Nat) (xs : List QF) : List QF :=
  rollingOp w (fun vals =>
    MQ.sqrtA (((MQ.listSum (vals.map (fun v => v.mul v))).div (MQ.ofNat w)).sub
      (((MQ.listSum vals).div (MQ.ofNat w)).mul
        ((MQ.listSum vals).div (MQ.ofNat w))))) xs

/-- State of the pandas `ewm(..., adjust=False).mean()` loop. -/
structure EwmState where
  avg : QF
  oldWt : MQ
  nobs : Nat

/-- One step of the pandas exponentially-weighted mean with `adjust=False`
and `ignore_na=False`: a NaN observation decays the carried weight, the
first observation seeds the average, later observations update it by
`(oldWt·(1-α)·avg + α·x) / (oldWt·(1-α) + α)` and reset the weight. -/
def ewmStep (alpha : MQ) (st : EwmState) (cur : QF) : EwmState :=
  match cur with
  | none =>
      match st.avg with
      | none => st
      | some _ => { st with oldWt := st.oldWt.mul (MQ.sub 1 alpha) }
  | some c =>
      match st.avg with
      | none => { avg := some c, oldWt := 1, nobs := 1 }
      | some w =>
          let ow := st.oldWt.mul (MQ.sub 1 alpha)
          { avg := some (((ow.mul w).add (alpha.mul c)).div (ow.add alpha))
            oldWt := 1, nobs := st.nobs + 1 }

/-- `series.ewm(alpha=α, min_periods=minp, adjust=False).mean()`. -/
def ewmMeanSeries (alpha : MQ) (minp : Nat) (xs : List QF) : List QF :=
  ((xs.scanl (ewmStep alpha) { avg := none, oldWt := 1, nobs := 0 }).tail).map
    (fun st => if minp ≤ st.nobs then st.avg else none)

/-- `ta.utils._ema`: `ewm(span=w, min_periods=w, adjust=False)`, so
`α = 2/(w+1)`. -/
def emaSeries (w : Nat) (xs : List QF) : List QF :=
  ewmMeanSeries (MQ.div 2 (MQ.ofNat (w + 1))) w xs

/-- `ta.momentum.RSIIndicator`: Wilder smoothing (`α = 1/w`) of the up and
down moves, with `np.where(emadn == 0, 100, 100 - 100/(1 + emaup/emadn))`. -/
def rsiSeries (w : Nat) (closes : List QF) : List QF :=
  let diff := diffSeries closes
  let up := diff.map (fun d => if qfLt (some 0) d then d else some 0)
  let dn := diff.map (fun d => if qfLt d (some 0) then qfSub (some 0) d else some 0)
  let emaup := ewmMeanSeries (MQ.div 1 (MQ.ofNat w)) w up
  let emadn := ewmMeanSeries (MQ.div 1 (MQ.ofNat w)) w dn
  (List.range closes.length).map (fun i =>
    let eu := emaup.getD i none
    let ed := emadn.getD i none
    if ed = some 0 then some 100
    else qfSub (some 100) (qfDiv (some 100) (qfAdd (some 1) (qfDiv eu ed))))

/-- `ta.trend.MACD` line: EMA12 − EMA26. -/
def macdSeries (closes : List QF) : List QF :=
  List.zipWith qfSub (emaSeries 12 closes) (emaSeries 26 closes)

/-- `ta.trend.MACD` signal line: EMA9 of the MACD line. -/
def macdSignalSeries (closes : List QF) : List QF :=
  emaSeries 9 (macdSeries closes)

/-- `ta.trend.MACD` histogram: MACD line − signal line. -/
def macdHistSeries (closes : List QF) : List QF :=
  List.zipWith qfSub (macdSeries closes) (macdSignalSeries closes)

/-- `ta.momentum.StochRSIIndicator`: `(rsi - min)/(max - min)` over a
rolling window of the RSI, then the %K smoothing mean. -/
def stochrsiKSeries (w smooth1 : Nat) (closes : List QF) : List QF :=
  let rsi := rsiSeries w closes
  let lowest := rollingMin w rsi
  let highest := rollingMax w rsi
  let stochrsi := (List.range rsi.length).map (fun i =>
    qfDiv (qfSub (rsi.getD i none) (lowest.getD i none))
      (qfSub (highest.getD i none) (lowest.getD i none)))
  rollingMean smooth1 stochrsi

/-- `ta.volume.OnBalanceVolumeIndicator`:
`np.where(close < close.shift(1), -volume, volume).cumsum()`. -/
def obvSeries (closes volumes : List QF) : List QF :=
  let shifted := shiftSeries closes
  let signed := (List.range closes.length).map (fun i =>
    if qfLt (closes.getD i none) (shifted.getD i none) then
      qfSub (some 0) (volumes.getD i none)
    else volumes.getD i none)
  ((signed.scanl qfAdd (some 0)).tail)

/-- `ta.volatility.AverageTrueRange` true range: rowwise max (skipping the
NaN that `close.shift(1)` puts at position 0) of high−low, |high−prevClose|,
|low−prevClose|. -/
def trueRangeSeries (highs lows closes : List MQ) : List MQ :=
  (List.range highs.length).map (fun i =>
    let h := highs.getD i 0
    let l := lows.getD i 0
    if i = 0 then h.sub l
    else
      let pc := closes.getD (i - 1) 0
      (h.sub l).max (((h.sub pc).abs).max ((l.sub pc).abs)))

/-- `ta.volatility.AverageTrueRange` smoothing: zeros, then the mean of the
first `w` true ranges at position `w-1`, then Wilder's recurrence
`atr = (atr·(w−1) + tr)/w`. -/
def atrSeries (w : Nat) (tr : List MQ) : List MQ :=
  let seedWindow := tr.take w
  let seed := (MQ.listSum seedWindow).div (MQ.ofNat seedWindow.length)
  let rest := (tr.drop w).scanl
    (fun prev t => ((prev.mul ((MQ.ofNat w).sub 1)).add t).div (MQ.ofNat w)) seed
  (List.range tr.length).map (fun i =>
    if i + 1 < w then 0 else rest.getD (i + 1 - w) 0)

/-- `ta.volume.VolumeWeightedAveragePrice` (default window 14): rolling sum
of typical-price·volume over rolling sum of volume. -/
def vwapSeries (w : Nat) (highs lows closes volumes : List MQ) : List QF :=
  let tp : List QF := (List.range highs.length).map (fun i =>
    some ((((highs.getD i 0).add (lows.getD i 0)).add (closes.getD i 0)).div 3))
  let tpv := (List.range highs.length).map (fun i =>
    qfMul (tp.getD i none) (some (volumes.getD i 0)))
  let vols := volumes.map some
  (List.range highs.length).map (fun i =>
    qfDiv ((rollingSum w tpv).getD i none) ((rollingSum w vols).getD i none))

/-- `ta.volume.ChaikinMoneyFlowIndicator`: money-flow volume with its 0/0
filled to 0, then rolling-sum ratio against volume. -/
def cmfSeries (w : Nat) (highs lows closes volumes : List MQ) : List QF :=
  let mfv := (List.range highs.length).map (fun i =>
    let h := highs.getD i 0
    let l := lows.getD i 0
    let c := closes.getD i 0
    let raw := qfDiv (some ((c.sub l).sub (h.sub c))) (some (h.sub l))
    qfMul (some (raw.getD 0)) (some (volumes.getD i 0)))
  let vols := volumes.map some
  (List.range highs.length).map (fun i =>
    qfDiv ((rollingSum w mfv).getD i none) ((rollingSum w vols).getD i none))

end TradingBot

namespace TradingBot

/-! ## Local path: `IndicatorsCalculator` (`indicators_calculator.py`) -/

/-- One OHLC row `[timestamp, open, high, low, close]` as supplied by the
CoinGecko collaborator. -/
structure Candle where
  ts : ℚ
  opn : ℚ
  high : ℚ
  low : ℚ
  close : ℚ
  deriving Repr, DecidableEq

/-- One dataframe row after `_prepare_dataframe` added the synthetic volume
column `volume = (high - low) * close * 1000`. -/
structure CandleV where
  ts : ℚ
  opn : ℚ
  high : ℚ
  low : ℚ
  close : ℚ
  volume : MQ
  deriving Repr, DecidableEq

/-- Embedding of `IndicatorsCalculator._prepare_dataframe` (lines 72-99):
`None` (missing) or empty input yields no dataframe; otherwise the rows are
kept and the volume proxy is synthesized. -/
def prepareDataframe : Option (List Candle) → Option (List CandleV)
  | none => none
  | some [] => none
  | some rows => some (rows.map (fun r =>
      { ts := r.ts, opn := r.opn, high := r.high, low := r.low,
        close := r.close,
        volume := (((MQ.ofRat r.high).sub (MQ.ofRat r.low)).mul
          (MQ.ofRat r.close)).mul 1000 }))

/-- One locally-computed technical-indicator entry; an `Option QF` field is
`none` when the entry does not carry that key, `some none` when the key
holds a float NaN. -/
structure LInd where
  name : String
  signal : String
  value : Option QF := none
  histogram : Option QF := none
  upper : Option QF := none
  middle : Option QF := none
  lower : Option QF := none
  trend : Option String := none
  deriving Repr, DecidableEq

/-- One locally-computed moving-average entry. -/
structure LMa where
  name : String
  maType : String
  value : QF
  signal : String
  deriving Repr, DecidableEq

/-- Last element of a float series (`iloc[-1]`). -/
def lastQF (xs : List QF) : QF := xs.getLastD none

/-- Second-to-last element (`iloc[-2]`). -/
def prevQF (xs : List QF) : QF := xs.getD (xs.length - 2) none

/-- Embedding of `IndicatorsCalculator._get_rsi_signal` (lines 281-288);
note the local vocabulary Overbought/Oversold/Neutral, and that a NaN value
falls through to Neutral. -/
def getRsiSignalLocal (v : QF) : String :=
  if qfLt (some 70) v then "Overbought"
  else if qfLt v (some 30) then "Oversold"
  else "Neutral"

/-- Embedding of `IndicatorsCalculator._calculate_technical_indicators`
(lines 101-232) over the prepared dataframe.  With at least 50 rows (the
guard in `calculate_indicators`) none of the nine blocks can raise, so every
block appends its entry; the float literal `0.02` of the ATR rule is the
real value it denotes. -/
def calcTechnicalIndicators (df : List CandleV) : List LInd :=
  let closes : List QF := df.map (fun r => some (MQ.ofRat r.close))
  let highsM : List MQ := df.map (fun r => MQ.ofRat r.high)
  let lowsM : List MQ := df.map (fun r => MQ.ofRat r.low)
  let closesM : List MQ := df.map (fun r => MQ.ofRat r.close)
  let volsM : List MQ := df.map (fun r => r.volume)
  let vols : List QF := volsM.map some
  let current : MQ := closesM.getLastD 0
  let rsiValue := lastQF (rsiSeries 14 closes)
  let macdValue := lastQF (macdSeries closes)
  let macdSignalValue := lastQF (macdSignalSeries closes)
  let macdHist := lastQF (macdHistSeries closes)
  let bbUpper := qfAdd (lastQF (rollingMean 20 closes))
    (qfMul (some 2) (lastQF (rollingStd 20 closes)))
  let bbMiddle := lastQF (rollingMean 20 closes)
  let bbLower := qfSub (lastQF (rollingMean 20 closes))
    (qfMul (some 2) (lastQF (rollingStd 20 closes)))
  let obv := obvSeries closes vols
  let obvValue := lastQF obv
  let obvPrev := prevQF obv
  let kValue := qfMul (lastQF (stochrsiKSeries 14 3 closes)) (some 100)
  let atrValue : MQ := (atrSeries 14 (trueRangeSeries highsM lowsM closesM)).getLastD 0
  let vwapValue := lastQF (vwapSeries 14 highsM lowsM closesM volsM)
  let cmfValue := lastQF (cmfSeries 20 highsM lowsM closesM volsM)
  [{ name := "RSI(14)", value := some rsiValue
     signal := getRsiSignalLocal rsiValue },
   { name := "MACD(12,26)", value := some macdValue
     signal := if qfLt macdSignalValue macdValue then "Buy" else "Sell"
     histogram := some macdHist },
   { name := "Bollinger Bands(20,2)", upper := some bbUpper
     middle := some bbMiddle, lower := some bbLower
     signal := if qfLe bbUpper (some current) then "Overbought"
       else if qfLe (some current) bbLower then "Oversold"
       else "Neutral" },
   { name := "OBV", value := some obvValue
     signal := if qfLt obvPrev obvValue then "Accumulation" else "Distribution" },
   { name := "StochRSI", value := some kValue
     signal := if qfLt (some 80) kValue then "Overbought"
       else if qfLt kValue (some 20) then "Oversold"
       else "Neutral" },
   { name := "ATR(14)", value := some (some atrValue)
     signal := if MQ.lt (current.mul (MQ.div 2 100)) atrValue
       then "High Volatility" else "Low Volatility" },
   { name := "VWAP", value := some vwapValue
     signal := if qfLt vwapValue (some current) then "Bullish" else "Bearish" },
   { name := "SuperTrend", value := some (some 0), signal := "N/A"
     trend := some "N/A" },
   { name := "CMF(20)", value := some cmfValue
     signal := if qfLt (some 0) cmfValue then "Buying Pressure"
       else "Selling Pressure" }]

/-- Embedding of `IndicatorsCalculator._calculate_moving_averages` (lines
234-252): EMA20/50/200 with signal `Buy` iff the current price exceeds the
EMA value (a NaN EMA therefore yields `Sell`). -/
def calcMovingAverages (df : List CandleV) : List LMa :=
  let closes : List QF := df.map (fun r => some (MQ.ofRat r.close))
  let current : MQ := (df.map (fun r => MQ.ofRat r.close)).getLastD 0
  [20, 50, 200].map (fun period =>
    let emaValue := lastQF (emaSeries period closes)
    { name := "MA" ++ toString period, maType := "Exponential"
      value := emaValue
      signal := if qfLt emaValue (some current) then "Buy" else "Sell" })

/-- Embedding of `IndicatorsCalculator._calculate_pivot_points` (lines
254-279): the Classic pivot set from the previous candle's high/low/close. -/
def calcPivotPoints (df : List CandleV) : List PivotSet :=
  let high := (df.map (fun r => r.high)).getD (df.length - 2) 0
  let low := (df.map (fun r => r.low)).getD (df.length - 2) 0
  let close := (df.map (fun r => r.close)).getD (df.length - 2) 0
  let pivot := (high + low + close) / 3
  [{ ptype := "Classic"
     pivot := pivot
     r1 := 2 * pivot - low
     s1 := 2 * pivot - high
     r2 := pivot + (high - low)
     s2 := pivot - (high - low)
     r3 := high + 2 * (pivot - low)
     s3 := low - 2 * (high - pivot) }]

/-- Embedding of `IndicatorsCalculator._generate_summaries` (lines 290-339):
the local vote maps the richer labels into buy/sell camps, compares the two
camps against the neutral remainder, rates the moving averages by unanimity,
and derives the overall label from agreement of the two sub-summaries. -/
def generateSummariesLocal (tech : List LInd) (mas : List LMa) : Summaries :=
  let techBuy := (tech.filter (fun i =>
    i.signal ∈ ["Buy", "Oversold", "Bullish", "Accumulation",
      "Buying Pressure"])).length
  let techSell := (tech.filter (fun i =>
    i.signal ∈ ["Sell", "Overbought", "Bearish", "Distribution",
      "Selling Pressure"])).length
  let techNeutral := tech.length - techBuy - techSell
  let maBuy := (mas.filter (fun m => m.signal = "Buy")).length
  let maSell := (mas.filter (fun m => m.signal = "Sell")).length
  let techSummary :=
    if techBuy > techSell ∧ techBuy > techNeutral then "Buy"
    else if techSell > techBuy ∧ techSell > techNeutral then "Sell"
    else "Neutral"
  let maSummary :=
    if maBuy = mas.length then "Strong Buy"
    else if maBuy > maSell then "Buy"
    else if maSell = mas.length then "Strong Sell"
    else if maSell > maBuy then "Sell"
    else "Neutral"
  let overall :=
    if techSummary = "Buy" ∧ (maSummary = "Buy" ∨ maSummary = "Strong Buy")
      then "Buy"
    else if techSummary = "Sell" ∧
        (maSummary = "Sell" ∨ maSummary = "Strong Sell") then "Sell"
    else "Neutral"
  { overall := overall, technicalIndicators := techSummary
    movingAverages := maSummary }

/-- Metadata of the local record (lines 66-69). -/
structure LocalMeta where
  provider : String
  dataPoints : Nat
  deriving Repr, DecidableEq

/-- The canonical record assembled by `calculate_indicators` (lines 55-70). -/
structure LocalRecord where
  symbol : String
  price : ℚ
  priceChange : ℚ
  priceChangePercent : ℚ
  summary : Summaries
  technicalIndicators : List LInd
  movingAverages : List LMa
  pivotPoints : List PivotSet
  sourceUrl : String
  scrapedAt : String
  metadata : LocalMeta

/-- The error raised by `calculate_indicators` when fewer than 50 candles
are supplied — the `ValueError("Insufficient data: need at least 50
candles, got ...")` of line 40, which the specification names
`InsufficientDataError`. -/
inductive CalcError where
  | insufficientData (got : Nat)
  deriving Repr, DecidableEq

/-- Embedding of `IndicatorsCalculator.calculate_indicators` (lines 25-70):
raise on a missing dataframe or fewer than 50 rows, otherwise assemble the
full record.  `now` stands for the `datetime.utcnow()` reading. -/
def calculateIndicators (rows : Option (List Candle)) (symbol now : String) :
    Except CalcError LocalRecord :=
  match prepareDataframe rows with
  | none => .error (.insufficientData 0)
  | some df =>
      if df.length < 50 then .error (.insufficientData df.length)
      else
        let closesQ : List ℚ := df.map (fun r => r.close)
        let currentPrice := closesQ.getLastD 0
        let prevClose := closesQ.getD (closesQ.length - 2) 0
        let priceChange := currentPrice - prevClose
        let tech := calcTechnicalIndicators df
        let mas := calcMovingAverages df
        .ok { symbol := symbol
              price := currentPrice
              priceChange := priceChange
              priceChangePercent := priceChange / prevClose * 100
              summary := generateSummariesLocal tech mas
              technicalIndicators := tech
              movingAverages := mas
              pivotPoints := calcPivotPoints df
              sourceUrl := "https://www.coingecko.com/en/coins/" ++ symbol
              scrapedAt := now
              metadata := { provider := "coingecko+pandas-ta"
                            dataPoints := df.length } }

end TradingBot

namespace TradingBot

/-- Number of candles supplied (0 for a missing series). -/
def dataCount : Option (List Candle) → Nat
  | none => 0
  | some l => l.length

/-! ## Claim C4 -/

/-- C4: `calculate_indicators` raises the insufficient-data error exactly
when fewer than 50 candles are supplied (a missing or empty series counts
as 0), and with at least 50 candles it produces a record and this error is
not raised; in the error case no record exists (the `Except` carries no
partial indicator set). -/
theorem insufficient_data_rule (rows : Option (List Candle))
    (symbol now : String) :
    (calculateIndicators rows symbol now
        = .error (.insufficientData (dataCount rows)) ↔ dataCount rows < 50) ∧
    (50 ≤ dataCount rows →
      ∃ rec, calculateIndicators rows symbol now = .ok rec) := by
  cases rows with
  | none =>
      exact ⟨by simp [calculateIndicators, prepareDataframe, dataCount],
        fun h => by simp [dataCount] at h⟩
  | some l =>
      cases l with
      | nil =>
          exact ⟨by simp [calculateIndicators, prepareDataframe, dataCount],
            fun h => by simp [dataCount] at h⟩
      | cons a rest =>
          have hpre : prepareDataframe (some (a :: rest)) =
              some ((a :: rest).map (fun r =>
                { ts := r.ts, opn := r.opn, high := r.high, low := r.low,
                  close := r.close,
                  volume := (((MQ.ofRat r.high).sub (MQ.ofRat r.low)).mul
                    (MQ.ofRat r.close)).mul 1000 })) := rfl
          have hlenmap : ((a :: rest).map (fun r =>
              { ts := r.ts, opn := r.opn, high := r.high, low := r.low,
                close := r.close,
                volume := (((MQ.ofRat r.high).sub (MQ.ofRat r.low)).mul
                  (MQ.ofRat r.close)).mul 1000 }) : List CandleV).length
              = (a :: rest).length := List.length_map _ _
          by_cases hlen : (a :: rest).length < 50
          · constructor
            · simp only [calculateIndicators, hpre, hlenmap, hlen, if_true,
                dataCount]
            · intro h
              simp only [dataCount] at h
              omega
          · constructor
            · simp only [calculateIndicators, hpre, hlenmap, hlen, if_false,
                dataCount]
              simp
            · intro _
              rcases hres : calculateIndicators (some (a :: rest)) symbol now
                with e | rec
              · simp only [calculateIndicators, hpre, hlenmap, hlen,
                  if_false] at hres
                simp at hres
              · exact ⟨rec, rfl⟩

end TradingBot

namespace TradingBot

/-- The 60-candle series with every price equal to 100 (the specification's
constant-price scenario). -/
def constRows : List Candle :=
  (List.range 60).map (fun i =>
    { ts := i, opn := 100, high := 100, low := 100, close := 100 })

/-- Witness for C4 at the 60-candle constant series. -/
theorem insufficient_data_rule_witness :
    50 ≤ dataCount (some constRows) ∧
      ∃ rec, calculateIndicators (some constRows) "ETH" "t" = .ok rec := by
  have h : 50 ≤ dataCount (some constRows) := by decide
  exact ⟨h, (insufficient_data_rule (some constRows) "ETH" "t").2 h⟩

/-- The record computed from the constant-price scenario. -/
def constRecordOpt : Option LocalRecord :=
  (calculateIndicators (some constRows) "ETH" "t").toOption

/-! ## Claim C6 -/

set_option maxRecDepth 200000 in
/-- Counterexample to C6 as stated: on the 60-candle constant-100 series the
local computation yields RSI = 100 (not 50; the `ta` library maps a zero
average loss to 100) and overall summary "Sell" (not "Neutral"). -/
theorem const_series_scenario_cex :
    constRecordOpt.map (fun r => (r.summary.overall,
      r.technicalIndicators.head?.map (fun i => (i.name, i.value))))
      = some ("Sell", some ("RSI(14)", some (some (100 : MQ)))) ∧
    ("Sell" : String) ≠ "Neutral" ∧ (100 : MQ) ≠ (50 : MQ) := by
  exact ⟨by decide, by decide, by decide⟩

set_option maxRecDepth 200000 in
/-- C6 (amended): on the 60-candle constant-100 series the local path
computes RSI = 100 with signal Overbought (the zero-average-loss convention
of the RSI implementation), MACD = 0 with signal Sell, Bollinger
upper = middle = lower = 100 with signal Overbought (price ≥ upper at
equality), OBV 0 (Distribution), StochRSI and VWAP and CMF NaN, ATR 0 (Low
Volatility), EMA20 = EMA50 = 100 but EMA200 NaN (only 60 candles), every
moving-average signal Sell (price > EMA fails at equality), and the
summaries are technical "Sell", moving averages "Strong Sell", overall
"Sell". -/
theorem const_series_scenario :
    constRecordOpt.map (fun r =>
        r.technicalIndicators.map (fun i => (i.name, i.signal, i.value)))
      = some [("RSI(14)", "Overbought", some (some (100 : MQ))),
          ("MACD(12,26)", "Sell", some (some 0)),
          ("Bollinger Bands(20,2)", "Overbought", none),
          ("OBV", "Distribution", some (some 0)),
          ("StochRSI", "Neutral", some none),
          ("ATR(14)", "Low Volatility", some (some 0)),
          ("VWAP", "Bearish", some none),
          ("SuperTrend", "N/A", some (some 0)),
          ("CMF(20)", "Selling Pressure", some none)] ∧
    constRecordOpt.map (fun r =>
        r.technicalIndicators.map (fun i => (i.upper, i.middle, i.lower)))
      = some [(none, none, none), (none, none, none),
          (some (some (100 : MQ)), some (some 100), some (some 100)),
          (none, none, none), (none, none, none), (none, none, none),
          (none, none, none), (none, none, none), (none, none, none)] ∧
    constRecordOpt.map (fun r =>
        r.movingAverages.map (fun m => (m.name, m.maType, m.value, m.signal)))
      = some [("MA20", "Exponential", some (100 : MQ), "Sell"),
          ("MA50", "Exponential", some 100, "Sell"),
          ("MA200", "Exponential", none, "Sell")] ∧
    constRecordOpt.map (fun r => r.summary)
      = some { overall := "Sell", technicalIndicators := "Sell",
               movingAverages := "Strong Sell" } := by
  exact ⟨by decide, by decide, by decide, by decide⟩

end TradingBot

namespace TradingBot

/-- The canonical indicator order of the schema. -/
def canonicalNames : List String :=
  ["RSI(14)", "MACD(12,26)", "Bollinger Bands(20,2)", "OBV", "StochRSI",
   "ATR(14)", "VWAP", "SuperTrend", "CMF(20)"]

/-- The canonical moving-average order of the schema. -/
def canonicalMaNames : List String := ["MA20", "MA50", "MA200"]

/-- The explicit not-applicable SuperTrend marker the local path emits. -/
def superTrendMarker : LInd :=
  { name := "SuperTrend", value := some (some 0), signal := "N/A"
    trend := some "N/A" }

theorem block_names_sub {blk : List Ind} {n : String}
    (hshape : blk = [] ∨ ∃ j, blk = [j] ∧ j.name = n ∧
      j.signal ∈ signalVocabOf n) :
    List.Sublist (blk.map Ind.name) [n] := by
  rcases hshape with h | ⟨j, hj, hn, _⟩
  · simp [h]
  · simp [hj, hn]

theorem mem_map_name {blk : List Ind} {n : String}
    (hshape : blk = [] ∨ ∃ j, blk = [j] ∧ j.name = n ∧
      j.signal ∈ signalVocabOf n) :
    ∀ x ∈ blk.map Ind.name, x = n := by
  rcases hshape with h | ⟨j, hj, hn, _⟩ <;> intro x hx
  · simp [h] at hx
  · simp [hj] at hx
    rw [hx, hn]

theorem mem_maBlock_name (bulk : BulkData) (price : ℚ) (period : Nat) :
    ∀ x ∈ (maBlock bulk price period).map Ma.name,
      x = "MA" ++ toString period := by
  rcases maBlock_shape bulk price period with h | ⟨j, hj, hn, _, _⟩ <;> intro x hx
  · simp [h] at hx
  · simp [hj] at hx
    rw [hx, hn]

theorem maBlock_names_sub (bulk : BulkData) (price : ℚ) (period : Nat) :
    List.Sublist ((maBlock bulk price period).map Ma.name) ["MA" ++ toString period] := by
  rcases maBlock_shape bulk price period with h | ⟨j, hj, hn, _, _⟩
  · simp [h]
  · simp [hj, hn]

/-- Inversion of a successful `calculate_indicators` run. -/
theorem calculateIndicators_ok (rows : Option (List Candle))
    (symbol now : String) (rec : LocalRecord)
    (h : calculateIndicators rows symbol now = .ok rec) :
    ∃ df, prepareDataframe rows = some df ∧
      rec.technicalIndicators = calcTechnicalIndicators df ∧
      rec.movingAverages = calcMovingAverages df ∧
      rec.pivotPoints = calcPivotPoints df := by
  cases hp : prepareDataframe rows with
  | none => simp [calculateIndicators, hp] at h
  | some df =>
      by_cases hlen : df.length < 50
      · simp [calculateIndicators, hp, hlen] at h
      · refine ⟨df, rfl, ?_⟩
        simp only [calculateIndicators, hp, hlen, if_false,
          Except.ok.injEq] at h
        rw [← h]
        exact ⟨rfl, rfl, rfl⟩

end TradingBot

namespace TradingBot

/-! ## Claim C7 -/

/-- C7: in both acquisition paths the technical-indicator list has at most 9
entries and the moving-average list at most 3, in the fixed canonical order
(RSI, MACD, Bollinger Bands, OBV, StochRSI, ATR, VWAP, SuperTrend, CMF; then
MA20, MA50, MA200); in the remote path an indicator absent from the source
data is omitted (its name never appears), and in the local path every list
is exactly the canonical one with SuperTrend emitted as the explicit
not-applicable marker. -/
theorem indicator_list_shape :
    (∀ (rows : Option (List Candle)) (symbol now : String) (rec : LocalRecord),
      calculateIndicators rows symbol now = .ok rec →
      rec.technicalIndicators.map LInd.name = canonicalNames ∧
      rec.technicalIndicators.length ≤ 9 ∧
      rec.movingAverages.map LMa.name = canonicalMaNames ∧
      rec.movingAverages.length ≤ 3 ∧
      superTrendMarker ∈ rec.technicalIndicators) ∧
    (∀ (bulk : BulkData) (l : List Ind),
      formatTechnicalIndicators bulk = .ok l →
      List.Sublist (l.map Ind.name) canonicalNames ∧ l.length ≤ 9 ∧
      ((bulk "rsi").bind Payload.value = none →
        "RSI(14)" ∉ l.map Ind.name) ∧
      ((bulk "macd").bind Payload.valueMACD = none →
        "MACD(12,26)" ∉ l.map Ind.name) ∧
      ((bulk "bbands").bind Payload.valueUpperBand = none →
        "Bollinger Bands(20,2)" ∉ l.map Ind.name) ∧
      ((bulk "obv").bind Payload.value = none → "OBV" ∉ l.map Ind.name) ∧
      ((bulk "stochrsi").bind Payload.valueK = none →
        "StochRSI" ∉ l.map Ind.name) ∧
      ((bulk "atr").bind Payload.value = none → "ATR(14)" ∉ l.map Ind.name) ∧
      ((bulk "vwap").bind Payload.value = none → "VWAP" ∉ l.map Ind.name) ∧
      ((bulk "supertrend").bind Payload.value = none →
        "SuperTrend" ∉ l.map Ind.name) ∧
      ((bulk "cmf").bind Payload.value = none →
        "CMF(20)" ∉ l.map Ind.name)) ∧
    (∀ (bulk : BulkData) (price : ℚ),
      List.Sublist ((formatMovingAverages bulk price).map Ma.name)
        canonicalMaNames ∧
      (formatMovingAverages bulk price).length ≤ 3 ∧
      (∀ per ∈ ([20, 50, 200] : List Nat),
        (bulk ("ema" ++ toString per)).bind Payload.value = none →
        ("MA" ++ toString per) ∉ (formatMovingAverages bulk price).map Ma.name)) := by
  refine ⟨?_, ?_, ?_⟩
  · intro rows symbol now rec h
    obtain ⟨df, _, htech, hmas, _⟩ := calculateIndicators_ok rows symbol now rec h
    rw [htech, hmas]
    refine ⟨rfl, ?_, rfl, ?_, ?_⟩
    · have h9 : (calcTechnicalIndicators df).length = 9 := rfl
      omega
    · have h3 : (calcMovingAverages df).length = 3 := rfl
      omega
    · simp [calcTechnicalIndicators, superTrendMarker]
  · intro bulk l h
    obtain ⟨bb, hbb, hl⟩ := formatTechnicalIndicators_ok bulk l h
    subst hl
    have hsub : List.Sublist ((rsiBlock bulk ++ macdBlock bulk ++ bb ++
        obvBlock bulk ++ stochrsiBlock bulk ++ atrBlock bulk ++
        vwapBlock bulk ++ supertrendBlock bulk ++ cmfBlock bulk).map Ind.name)
        canonicalNames := by
      simp only [List.map_append]
      exact ((((((((block_names_sub (rsiBlock_shape bulk)).append
        (block_names_sub (macdBlock_shape bulk))).append
        (block_names_sub (bbandsBlock_shape bulk bb hbb))).append
        (block_names_sub (obvBlock_shape bulk))).append
        (block_names_sub (stochrsiBlock_shape bulk))).append
        (block_names_sub (atrBlock_shape bulk))).append
        (block_names_sub (vwapBlock_shape bulk))).append
        (block_names_sub (supertrendBlock_shape bulk))).append
        (block_names_sub (cmfBlock_shape bulk))
    refine ⟨hsub, ?_, ?_, ?_, ?_, ?_, ?_, ?_, ?_, ?_, ?_⟩
    · have := hsub.length_le
      simpa using this
    · intro habs hmem
      simp only [List.map_append, List.mem_append] at hmem
      rcases hmem with ((((((((h | h) | h) | h) | h) | h) | h) | h) | h)
      · rw [rsiBlock_empty bulk habs] at h; simp at h
      · exact absurd (mem_map_name (macdBlock_shape bulk) _ h) (by decide)
      · exact absurd (mem_map_name (bbandsBlock_shape bulk bb hbb) _ h) (by decide)
      · exact absurd (mem_map_name (obvBlock_shape bulk) _ h) (by decide)
      · exact absurd (mem_map_name (stochrsiBlock_shape bulk) _ h) (by decide)
      · exact absurd (mem_map_name (atrBlock_shape bulk) _ h) (by decide)
      · exact absurd (mem_map_name (vwapBlock_shape bulk) _ h) (by decide)
      · exact absurd (mem_map_name (supertrendBlock_shape bulk) _ h) (by decide)
      · exact absurd (mem_map_name (cmfBlock_shape bulk) _ h) (by decide)
    · intro habs hmem
      simp only [List.map_append, List.mem_append] at hmem
      rcases hmem with ((((((((h | h) | h) | h) | h) | h) | h) | h) | h)
      · exact absurd (mem_map_name (rsiBlock_shape bulk) _ h) (by decide)
      · rw [macdBlock_empty bulk habs] at h; simp at h
      · exact absurd (mem_map_name (bbandsBlock_shape bulk bb hbb) _ h) (by decide)
      · exact absurd (mem_map_name (obvBlock_shape bulk) _ h) (by decide)
      · exact absurd (mem_map_name (stochrsiBlock_shape bulk) _ h) (by decide)
      · exact absurd (mem_map_name (atrBlock_shape bulk) _ h) (by decide)
      · exact absurd (mem_map_name (vwapBlock_shape bulk) _ h) (by decide)
      · exact absurd (mem_map_name (supertrendBlock_shape bulk) _ h) (by decide)
      · exact absurd (mem_map_name (cmfBlock_shape bulk) _ h) (by decide)
    · intro habs hmem
      have hbbnil : bb = [] := by
        rw [bbandsBlock_empty bulk habs] at hbb
        injection hbb
        simp_all
      simp only [List.map_append, List.mem_append] at hmem
      rcases hmem with ((((((((h | h) | h) | h) | h) | h) | h) | h) | h)
      · exact absurd (mem_map_name (rsiBlock_shape bulk) _ h) (by decide)
      · exact absurd (mem_map_name (macdBlock_shape bulk) _ h) (by decide)
      · rw [hbbnil] at h; simp at h
      · exact absurd (mem_map_name (obvBlock_shape bulk) _ h) (by decide)
      · exact absurd (mem_map_name (stochrsiBlock_shape bulk) _ h) (by decide)
      · exact absurd (mem_map_name (atrBlock_shape bulk) _ h) (by decide)
      · exact absurd (mem_map_name (vwapBlock_shape bulk) _ h) (by decide)
      · exact absurd (mem_map_name (supertrendBlock_shape bulk) _ h) (by decide)
      · exact absurd (mem_map_name (cmfBlock_shape bulk) _ h) (by decide)
    · intro habs hmem
      simp only [List.map_append, List.mem_append] at hmem
      rcases hmem with ((((((((h | h) | h) | h) | h) | h) | h) | h) | h)
      · exact absurd (mem_map_name (rsiBlock_shape bulk) _ h) (by decide)
      · exact absurd (mem_map_name (macdBlock_shape bulk) _ h) (by decide)
      · exact absurd (mem_map_name (bbandsBlock_shape bulk bb hbb) _ h) (by decide)
      · rw [obvBlock_empty bulk habs] at h; simp at h
      · exact absurd (mem_map_name (stochrsiBlock_shape bulk) _ h) (by decide)
      · exact absurd (mem_map_name (atrBlock_shape bulk) _ h) (by decide)
      · exact absurd (mem_map_name (vwapBlock_shape bulk) _ h) (by decide)
      · exact absurd (mem_map_name (supertrendBlock_shape bulk) _ h) (by decide)
      · exact absurd (mem_map_name (cmfBlock_shape bulk) _ h) (by decide)
    · intro habs hmem
      simp only [List.map_append, List.mem_append] at hmem
      rcases hmem with ((((((((h | h) | h) | h) | h) | h) | h) | h) | h)
      · exact absurd (mem_map_name (rsiBlock_shape bulk) _ h) (by decide)
      · exact absurd (mem_map_name (macdBlock_shape bulk) _ h) (by decide)
      · exact absurd (mem_map_name (bbandsBlock_shape bulk bb hbb) _ h) (by decide)
      · exact absurd (mem_map_name (obvBlock_shape bulk) _ h) (by decide)
      · rw [stochrsiBlock_empty bulk habs] at h; simp at h
      · exact absurd (mem_map_name (atrBlock_shape bulk) _ h) (by decide)
      · exact absurd (mem_map_name (vwapBlock_shape bulk) _ h) (by decide)
      · exact absurd (mem_map_name (supertrendBlock_shape bulk) _ h) (by decide)
      · exact absurd (mem_map_name (cmfBlock_shape bulk) _ h) (by decide)
    · intro habs hmem
      simp only [List.map_append, List.mem_append] at hmem
      rcases hmem with ((((((((h | h) | h) | h) | h) | h) | h) | h) | h)
      · exact absurd (mem_map_name (rsiBlock_shape bulk) _ h) (by decide)
      · exact absurd (mem_map_name (macdBlock_shape bulk) _ h) (by decide)
      · exact absurd (mem_map_name (bbandsBlock_shape bulk bb hbb) _ h) (by decide)
      · exact absurd (mem_map_name (obvBlock_shape bulk) _ h) (by decide)
      · exact absurd (mem_map_name (stochrsiBlock_shape bulk) _ h) (by decide)
      · rw [atrBlock_empty bulk habs] at h; simp at h
      · exact absurd (mem_map_name (vwapBlock_shape bulk) _ h) (by decide)
      · exact absurd (mem_map_name (supertrendBlock_shape bulk) _ h) (by decide)
      · exact absurd (mem_map_name (cmfBlock_shape bulk) _ h) (by decide)
    · intro habs hmem
      simp only [List.map_append, List.mem_append] at hmem
      rcases hmem with ((((((((h | h) | h) | h) | h) | h) | h) | h) | h)
      · exact absurd (mem_map_name (rsiBlock_shape bulk) _ h) (by decide)
      · exact absurd (mem_map_name (macdBlock_shape bulk) _ h) (by decide)
      · exact absurd (mem_map_name (bbandsBlock_shape bulk bb hbb) _ h) (by decide)
      · exact absurd (mem_map_name (obvBlock_shape bulk) _ h) (by decide)
      · exact absurd (mem_map_name (stochrsiBlock_shape bulk) _ h) (by decide)
      · exact absurd (mem_map_name (atrBlock_shape bulk) _ h) (by decide)
      · rw [vwapBlock_empty bulk habs] at h; simp at h
      · exact absurd (mem_map_name (supertrendBlock_shape bulk) _ h) (by decide)
      · exact absurd (mem_map_name (cmfBlock_shape bulk) _ h) (by decide)
    · intro habs hmem
      simp only [List.map_append, List.mem_append] at hmem
      rcases hmem with ((((((((h | h) | h) | h) | h) | h) | h) | h) | h)
      · exact absurd (mem_map_name (rsiBlock_shape bulk) _ h) (by decide)
      · exact absurd (mem_map_name (macdBlock_shape bulk) _ h) (by decide)
      · exact absurd (mem_map_name (bbandsBlock_shape bulk bb hbb) _ h) (by decide)
      · exact absurd (mem_map_name (obvBlock_shape bulk) _ h) (by decide)
      · exact absurd (mem_map_name (stochrsiBlock_shape bulk) _ h) (by decide)
      · exact absurd (mem_map_name (atrBlock_shape bulk) _ h) (by decide)
      · exact absurd (mem_map_name (vwapBlock_shape bulk) _ h) (by decide)
      · rw [supertrendBlock_empty bulk habs] at h; simp at h
      · exact absurd (mem_map_name (cmfBlock_shape bulk) _ h) (by decide)
    · intro habs hmem
      simp only [List.map_append, List.mem_append] at hmem
      rcases hmem with ((((((((h | h) | h) | h) | h) | h) | h) | h) | h)
      · exact absurd (mem_map_name (rsiBlock_shape bulk) _ h) (by decide)
      · exact absurd (mem_map_name (macdBlock_shape bulk) _ h) (by decide)
      · exact absurd (mem_map_name (bbandsBlock_shape bulk bb hbb) _ h) (by decide)
      · exact absurd (mem_map_name (obvBlock_shape bulk) _ h) (by decide)
      · exact absurd (mem_map_name (stochrsiBlock_shape bulk) _ h) (by decide)
      · exact absurd (mem_map_name (atrBlock_shape bulk) _ h) (by decide)
      · exact absurd (mem_map_name (vwapBlock_shape bulk) _ h) (by decide)
      · exact absurd (mem_map_name (supertrendBlock_shape bulk) _ h) (by decide)
      · rw [cmfBlock_empty bulk habs] at h; simp at h
  · intro bulk price
    have hsub : List.Sublist ((formatMovingAverages bulk price).map Ma.name)
        canonicalMaNames := by
      unfold formatMovingAverages
      simp only [List.map_append]
      exact ((maBlock_names_sub bulk price 20).append
        (maBlock_names_sub bulk price 50)).append
        (maBlock_names_sub bulk price 200)
    refine ⟨hsub, ?_, ?_⟩
    · have := hsub.length_le
      simpa using this
    · intro per hper habs hmem
      unfold formatMovingAverages at hmem
      simp only [List.map_append, List.mem_append] at hmem
      simp only [List.mem_cons, List.not_mem_nil, or_false] at hper
      rcases hper with rfl | rfl | rfl
      · rcases hmem with (h | h) | h
        · rw [maBlock_empty bulk price 20 habs] at h; simp at h
        · exact absurd (mem_maBlock_name bulk price 50 _ h) (by decide)
        · exact absurd (mem_maBlock_name bulk price 200 _ h) (by decide)
      · rcases hmem with (h | h) | h
        · exact absurd (mem_maBlock_name bulk price 20 _ h) (by decide)
        · rw [maBlock_empty bulk price 50 habs] at h; simp at h
        · exact absurd (mem_maBlock_name bulk price 200 _ h) (by decide)
      · rcases hmem with (h | h) | h
        · exact absurd (mem_maBlock_name bulk price 20 _ h) (by decide)
        · exact absurd (mem_maBlock_name bulk price 50 _ h) (by decide)
        · rw [maBlock_empty bulk price 200 habs] at h; simp at h

end TradingBot

namespace TradingBot

set_option maxRecDepth 100000 in
/-- Witness for C7 at the constant-price series (local path). -/
theorem indicator_list_shape_witness :
    (calculateIndicators (some constRows) "ETH" "t").toOption.map
      (fun rec => rec.technicalIndicators.map LInd.name)
      = some canonicalNames := by
  cases hres : calculateIndicators (some constRows) "ETH" "t" with
  | error e =>
      have hsome : (calculateIndicators (some constRows) "ETH" "t").toOption.isSome
          = true := by decide
      rw [hres] at hsome
      simp [Except.toOption] at hsome
  | ok rec =>
      have h := (indicator_list_shape.1 (some constRows) "ETH" "t" rec hres).1
      simp [Except.toOption, h]

/-! ## Claim C8 -/

/-- The previous candle's high (`df['high'].iloc[-2]`). -/
def prevHigh (df : List CandleV) : ℚ :=
  (df.map (fun r => r.high)).getD (df.length - 2) 0

/-- The previous candle's low. -/
def prevLow (df : List CandleV) : ℚ :=
  (df.map (fun r => r.low)).getD (df.length - 2) 0

/-- The previous candle's close. -/
def prevClose (df : List CandleV) : ℚ :=
  (df.map (fun r => r.close)).getD (df.length - 2) 0

/-- C8 (amended): the local path emits exactly one Classic pivot set with
the stated formulas over the previous candle's high/low/close, and the
levels are strictly ordered (`pivot < r1 < r2 < r3` and
`s3 < s2 < s1 < pivot`) whenever that candle has `low ≤ close ≤ high` and
`low < high`; when `high = low = close` all seven levels coincide, so the
strict ordering of the claim does not hold unconditionally. -/
theorem classic_pivot_levels (df : List CandleV)
    (h1 : prevLow df ≤ prevClose df) (h2 : prevClose df ≤ prevHigh df)
    (h3 : prevLow df < prevHigh df) :
    calcPivotPoints df =
      [{ ptype := "Classic"
         pivot := (prevHigh df + prevLow df + prevClose df) / 3
         r1 := 2 * ((prevHigh df + prevLow df + prevClose df) / 3) - prevLow df
         s1 := 2 * ((prevHigh df + prevLow df + prevClose df) / 3) - prevHigh df
         r2 := (prevHigh df + prevLow df + prevClose df) / 3 +
           (prevHigh df - prevLow df)
         s2 := (prevHigh df + prevLow df + prevClose df) / 3 -
           (prevHigh df - prevLow df)
         r3 := prevHigh df + 2 * ((prevHigh df + prevLow df + prevClose df) / 3 -
           prevLow df)
         s3 := prevLow df - 2 * (prevHigh df -
           (prevHigh df + prevLow df + prevClose df) / 3) }] ∧
    (∀ p ∈ calcPivotPoints df,
      p.pivot < p.r1 ∧ p.r1 < p.r2 ∧ p.r2 < p.r3 ∧
      p.s1 < p.pivot ∧ p.s2 < p.s1 ∧ p.s3 < p.s2) := by
  constructor
  · rfl
  · intro p hp
    simp only [calcPivotPoints, List.mem_singleton] at hp
    subst hp
    have hH : prevHigh df = (df.map (fun r => r.high)).getD (df.length - 2) 0 := rfl
    have hL : prevLow df = (df.map (fun r => r.low)).getD (df.length - 2) 0 := rfl
    have hC : prevClose df = (df.map (fun r => r.close)).getD (df.length - 2) 0 := rfl
    rw [← hH, ← hL, ← hC] at *
    refine ⟨?_, ?_, ?_, ?_, ?_, ?_⟩ <;>
      simp only [] <;> rw [← hH, ← hL, ← hC] <;> linarith

end TradingBot

namespace TradingBot

/-- A two-candle dataframe whose previous candle is 110/90/100. -/
def pivotWitnessDf : List CandleV :=
  [{ ts := 0, opn := 100, high := 110, low := 90, close := 100, volume := 0 },
   { ts := 1, opn := 100, high := 105, low := 95, close := 100, volume := 0 }]

/-- Witness for C8 (amended) at a concrete valid previous candle. -/
theorem classic_pivot_levels_witness :
    (prevLow pivotWitnessDf ≤ prevClose pivotWitnessDf ∧
     prevClose pivotWitnessDf ≤ prevHigh pivotWitnessDf ∧
     prevLow pivotWitnessDf < prevHigh pivotWitnessDf) ∧
    (∀ p ∈ calcPivotPoints pivotWitnessDf,
      p.pivot < p.r1 ∧ p.r1 < p.r2 ∧ p.r2 < p.r3 ∧
      p.s1 < p.pivot ∧ p.s2 < p.s1 ∧ p.s3 < p.s2) := by
  have h1 : prevLow pivotWitnessDf ≤ prevClose pivotWitnessDf := by
    show (90 : ℚ) ≤ 100
    norm_num
  have h2 : prevClose pivotWitnessDf ≤ prevHigh pivotWitnessDf := by
    show (100 : ℚ) ≤ 110
    norm_num
  have h3 : prevLow pivotWitnessDf < prevHigh pivotWitnessDf := by
    show (90 : ℚ) < 110
    norm_num
  exact ⟨⟨h1, h2, h3⟩, (classic_pivot_levels pivotWitnessDf h1 h2 h3).2⟩

/-- The prepared dataframe of the constant-price scenario. -/
def constDfV : List CandleV := constRows.map (fun r =>
  { ts := r.ts, opn := r.opn, high := r.high, low := r.low, close := r.close,
    volume := (((MQ.ofRat r.high).sub (MQ.ofRat r.low)).mul
      (MQ.ofRat r.close)).mul 1000 })

set_option maxRecDepth 100000 in
/-- Counterexample to C8 as stated: the accepted 60-candle constant-100
series is processed into a pivot set with
`r1 = r2 = r3 = s1 = s2 = s3 = pivot = 100`, so `r1 < r2 < r3` fails. -/
theorem classic_pivot_levels_cex :
    constRecordOpt.map (fun r => r.pivotPoints.map (fun p =>
        (p.pivot, p.r1, p.r2, p.r3, p.s1, p.s2, p.s3)))
      = some [(100, 100, 100, 100, 100, 100, 100)] ∧
    ¬ ((100 : ℚ) < 100) := by
  constructor
  · cases hres : calculateIndicators (some constRows) "ETH" "t" with
    | error e =>
        have hsome : (calculateIndicators (some constRows) "ETH"
            "t").toOption.isSome = true := by decide
        rw [hres] at hsome
        simp [Except.toOption] at hsome
    | ok rec =>
        obtain ⟨df, hdf, _, _, hpiv⟩ :=
          calculateIndicators_ok (some constRows) "ETH" "t" rec hres
        have hdfc : prepareDataframe (some constRows) = some constDfV := rfl
        rw [hdfc] at hdf
        have hdf' : constDfV = df := Option.some.inj hdf
        have hH : (constDfV.map (fun r => r.high)).getD
            (constDfV.length - 2) 0 = 100 := rfl
        have hL : (constDfV.map (fun r => r.low)).getD
            (constDfV.length - 2) 0 = 100 := rfl
        have hC : (constDfV.map (fun r => r.close)).getD
            (constDfV.length - 2) 0 = 100 := rfl
        show ((calculateIndicators (some constRows) "ETH"
          "t").toOption.map (fun r => r.pivotPoints.map (fun p =>
            (p.pivot, p.r1, p.r2, p.r3, p.s1, p.s2, p.s3)))) = _
        rw [hres]
        simp only [Except.toOption, Option.map_some', Option.some.injEq]
        rw [hpiv, ← hdf']
        simp only [calcPivotPoints, hH, hL, hC, List.map_cons, List.map_nil,
          List.cons.injEq, and_true]
        norm_num
  · norm_num

end TradingBot

namespace TradingBot

/-- The remote-path OBV entry carrying the signal "Accumulation". -/
def accIndR : Ind := { name := "OBV", signal := "Accumulation" }

/-- The local-path OBV entry carrying the same signal "Accumulation". -/
def accIndL : LInd := { name := "OBV", signal := "Accumulation" }

/-! ## Claim C10 -/

/-- C10: the remote aggregator counts an indicator toward buy/sell only when
its signal is exactly "Buy"/"Sell", so the richer labels (Overbought,
Oversold, Accumulation, Distribution, Bullish, Bearish, High/Low Volatility,
Buying/Selling Pressure) contribute to the total `n` but never to the
counts; the local aggregator instead maps Oversold/Bullish/Accumulation/
Buying Pressure to buy votes (and the mirror labels to sell votes); hence
the same signal multiset — a single "Accumulation" — yields technical
summary "Neutral" on the remote path and "Buy" on the local path. -/
theorem summary_policy_divergence :
    (∀ (tech : List Ind) (mas : List Ma),
      (∀ i ∈ tech, i.signal ∈ ["Overbought", "Oversold", "Accumulation",
        "Distribution", "Bullish", "Bearish", "High Volatility",
        "Low Volatility", "Buying Pressure", "Selling Pressure"]) →
      (generateSummariesRemote tech mas).technicalIndicators
        = getSummaryLabel 0 0 tech.length) ∧
    (∀ (tech : List LInd) (mas : List LMa), tech ≠ [] →
      (∀ i ∈ tech, i.signal ∈ ["Buy", "Oversold", "Bullish", "Accumulation",
        "Buying Pressure"]) →
      (generateSummariesLocal tech mas).technicalIndicators = "Buy") ∧
    (accIndR.signal = accIndL.signal ∧
     (generateSummariesRemote [accIndR] []).technicalIndicators = "Neutral" ∧
     (generateSummariesLocal [accIndL] []).technicalIndicators = "Buy" ∧
     ("Neutral" : String) ≠ "Buy") := by
  have hremote : ∀ (tech : List Ind) (mas : List Ma),
      (∀ i ∈ tech, i.signal ∈ ["Overbought", "Oversold", "Accumulation",
        "Distribution", "Bullish", "Bearish", "High Volatility",
        "Low Volatility", "Buying Pressure", "Selling Pressure"]) →
      (generateSummariesRemote tech mas).technicalIndicators
        = getSummaryLabel 0 0 tech.length := by
    intro tech mas hsig
    have hb : tech.filter (fun i => i.signal = "Buy") = [] := by
      rw [List.filter_eq_nil_iff]
      intro i hi
      have h10 := hsig i hi
      simp only [List.mem_cons, List.not_mem_nil, or_false] at h10
      simp only [decide_eq_true_eq]
      intro heq
      rw [heq] at h10
      rcases h10 with h | h | h | h | h | h | h | h | h | h <;>
        exact absurd h (by decide)
    have hs : tech.filter (fun i => i.signal = "Sell") = [] := by
      rw [List.filter_eq_nil_iff]
      intro i hi
      have h10 := hsig i hi
      simp only [List.mem_cons, List.not_mem_nil, or_false] at h10
      simp only [decide_eq_true_eq]
      intro heq
      rw [heq] at h10
      rcases h10 with h | h | h | h | h | h | h | h | h | h <;>
        exact absurd h (by decide)
    simp only [generateSummariesRemote, hb, hs, List.length_nil]
  have hlocal : ∀ (tech : List LInd) (mas : List LMa), tech ≠ [] →
      (∀ i ∈ tech, i.signal ∈ ["Buy", "Oversold", "Bullish", "Accumulation",
        "Buying Pressure"]) →
      (generateSummariesLocal tech mas).technicalIndicators = "Buy" := by
    intro tech mas hne hsig
    have hlen : 0 < tech.length := List.length_pos.mpr hne
    have hb : tech.filter (fun i => i.signal ∈ ["Buy", "Oversold", "Bullish",
        "Accumulation", "Buying Pressure"]) = tech := by
      rw [List.filter_eq_self]
      intro i hi
      simpa using hsig i hi
    have hs : tech.filter (fun i => i.signal ∈ ["Sell", "Overbought",
        "Bearish", "Distribution", "Selling Pressure"]) = [] := by
      rw [List.filter_eq_nil_iff]
      intro i hi
      have h5 := hsig i hi
      simp only [List.mem_cons, List.not_mem_nil, or_false] at h5
      simp only [List.mem_cons, List.not_mem_nil, or_false,
        decide_eq_true_eq]
      intro heq
      rcases h5 with h | h | h | h | h <;> rw [h] at heq <;>
        rcases heq with h' | h' | h' | h' | h' <;> exact absurd h' (by decide)
    simp only [generateSummariesLocal, hb, hs, List.length_nil]
    rw [if_pos]
    omega
  refine ⟨hremote, hlocal, rfl, ?_, ?_, by decide⟩
  · have h := hremote [accIndR] [] (by decide)
    rw [h]
    simp [getSummaryLabel]
    norm_num
  · exact hlocal [accIndL] [] (by decide) (by decide)

/-- Witness for C10 at the single-"Accumulation" inputs. -/
theorem summary_policy_divergence_witness :
    (generateSummariesRemote [accIndR] []).technicalIndicators
      = getSummaryLabel 0 0 1 ∧
    (generateSummariesLocal [accIndL] []).technicalIndicators = "Buy" :=
  ⟨summary_policy_divergence.1 [accIndR] [] (by decide),
   summary_policy_divergence.2.1 [accIndL] [] (by decide) (by decide)⟩

end TradingBot
